import Mathlib

/-!
Shallow embedding of the resilient tool-invocation subsystem of the
jamf-mcp-agent repository: the MCP Connection Client
(src/mcp/client.ts), the timeout wrapper (utils.ts / withTimeout), and
the orchestration loop (src/claude/agent.ts), together with theorems
settling the frozen claims about them.

Modelling conventions:
* Asynchronous remote operations are modelled by an environment `Env`
  that answers the n-th invocation of each primitive with an `Outcome`:
  a value, a rejection carrying a JavaScript error value, or `hang`
  (the promise never settles, which a surrounding `withTimeout` turns
  into a `TimeoutError`).
* Methods are state transformers in a state-plus-exception monad `M`;
  the state records the client's fields, the per-primitive invocation
  counters, and a trace of performed I/O events (used to state the
  "performs no I/O" claims).
* Regex tests of the source (`TRANSPORT_ERROR_PATTERN`,
  `RATE_LIMIT_PATTERN`, the code-fence regex) are alternations of
  literals, modelled as case-insensitive substring tests respectively
  an explicit fence scanner.
* Fire-and-forget metric recording (`recordMCPToolCall` etc.) and log
  statements have no control-flow effect and are not modelled.
-/

namespace Jamf

/-! ## String utilities -/

/-- `leadsWith s pat` is true when `pat` occurs at the head of `s`. -/
def leadsWith : List Char → List Char → Bool
  | _, [] => true
  | [], _ :: _ => false
  | c :: s, p :: ps => (c = p) && leadsWith s ps

/-- `hasSub pat s` is true when `pat` occurs as a contiguous substring of `s`. -/
def hasSub (pat : List Char) : List Char → Bool
  | [] => leadsWith [] pat
  | c :: rest => leadsWith (c :: rest) pat || hasSub pat rest

/-- Case-insensitive alternation test: does `msg` contain one of the
literal alternatives? Models a JS regex of the form `/a|b|c/i` whose
alternatives are plain literals. -/
def matchesAlt (alts : List String) (msg : String) : Bool :=
  alts.any (fun p =>
    hasSub (p.toList.map Char.toLower) (msg.toList.map Char.toLower))

/-- `TRANSPORT_ERROR_PATTERN = /ECONNREFUSED|ECONNRESET|EPIPE|closed|disconnect/i`
(src/mcp/client.ts). -/
def transportAlts : List String :=
  ["ECONNREFUSED", "ECONNRESET", "EPIPE", "closed", "disconnect"]

/-- `RATE_LIMIT_PATTERN = /too many connections|rate limit|throttl/i`
(src/claude/agent.ts). -/
def rateLimitAlts : List String :=
  ["too many connections", "rate limit", "throttl"]

/-! ## JavaScript error values

The source uses an `Error` subclass hierarchy (src/errors.ts):
`AppError`
  with `MCPError`, `BedrockError`, `TimeoutError`, ... distinguished via
`this.name` and `instanceof`. We record the class name, the message,
the `timeoutMs` field (present only on `TimeoutError`) and the optional
`cause`. A thrown value that is not an `Error` (possible in JS) is
`thrownValue`. -/

/-- The observable fields of a plain `Error` used as a `cause`: in this
codebase a cause is always an error that itself has no cause
(`withTimeout` creates `TimeoutError`s without cause; the connect
wrapper normalises non-Error values to plain `Error`s), so one level
suffices. -/
structure ErrCore where
  cname : String
  cmsg : String
  ctimeoutMs : Option Nat
  deriving Repr, DecidableEq

inductive ErrVal where
  | error (name : String) (message : String) (timeoutMs : Option Nat)
      (cause : Option ErrCore)
  | thrownValue (repr : String)
  deriving Repr, DecidableEq

/-- `err.message` as the source reads it: a non-Error thrown value has
no `message` property, and `RATE_LIMIT_PATTERN.test(undefined)` in JS
coerces `undefined` to the string "undefined". -/
def ErrVal.msg : ErrVal → String
  | .error _ m _ _ => m
  | .thrownValue _ => "undefined"

/-- `isTransportError` (src/mcp/client.ts line 33): an `Error` whose
message matches the transport pattern; any non-Error value is not a
transport error. -/
def isTransportError : ErrVal → Bool
  | .error _ m _ _ => matchesAlt transportAlts m
  | .thrownValue _ => false

/-- `err instanceof MCPError` — `MCPError` has no subclasses in the
source, so this is a class-name test. -/
def isMCPError : ErrVal → Bool
  | .error n _ _ _ => n = "MCPError"
  | .thrownValue _ => false

/-- `new MCPError(message, {...})` with no cause. -/
def mcpErr (message : String) : ErrVal :=
  .error "MCPError" message none none

/-- `err instanceof Error ? err : new Error(String(err))` — the cause
recorded by the connect-failure wrapper, projected to its observable
fields. -/
def asError : ErrVal → ErrCore
  | .error n m t _ => { cname := n, cmsg := m, ctimeoutMs := t }
  | .thrownValue r => { cname := "Error", cmsg := r, ctimeoutMs := none }

/-- `new TimeoutError(label ++ " timed out after " ++ ms ++ "ms", {timeoutMs: ms, ...})`
as produced by `withTimeout` (utils.ts). -/
def timeoutErr (label : String) (ms : Nat) : ErrVal :=
  .error "TimeoutError" (label ++ " timed out after " ++ toString ms ++ "ms")
    (some ms) none

/-! ## MCP data model -/

/-- A discovered tool descriptor (name, description, opaque schema). -/
structure Tool where
  name : String
  description : String
  deriving Repr, DecidableEq

/-- A discovered resource descriptor. -/
structure Resource where
  uri : String
  rname : String
  deriving Repr, DecidableEq

/-- One content item of a `CallToolResult` (`{type, text}`). -/
structure ContentItem where
  ctype : String
  ctext : String
  deriving Repr, DecidableEq

/-- The MCP SDK's `CallToolResult`: content list plus optional error flag. -/
structure CallToolResult where
  content : List ContentItem
  isError : Option Bool
  deriving Repr, DecidableEq

/-- One entry of `readResource`'s `result.contents`: either it exposes a
`text` property or it does not (e.g. a blob entry). -/
inductive ResContent where
  | withText (text : String)
  | noText (repr : String)
  deriving Repr, DecidableEq

/-- Stand-in for `JSON.stringify(result.contents)` — an injective
serialisation of the content list; the claims never depend on the exact
string, only on which branch produced the result. -/
def serializeRes (contents : List ResContent) : String :=
  "[" ++ String.intercalate ","
    (contents.map (fun c =>
      match c with
      | .withText t => "text:" ++ t
      | .noText r => r)) ++ "]"

/-- `const content = result.contents[0]; if (content && 'text' in content)
return content.text; return JSON.stringify(result.contents);` -/
def resourceText (contents : List ResContent) : String :=
  match contents with
  | .withText t :: _ => t
  | _ => serializeRes contents

/-- JS `Map.set` semantics on an insertion-ordered association list keyed
by tool name: overwrite in place if present, else append. -/
def toolMapSet (m : List Tool) (t : Tool) : List Tool :=
  if m.any (fun x => x.name = t.name) then
    m.map (fun x => if x.name = t.name then t else x)
  else m ++ [t]

/-- `for (const tool of toolsResult.tools) this.tools.set(tool.name, tool)`. -/
def toolMapSetAll (m : List Tool) (ts : List Tool) : List Tool :=
  ts.foldl toolMapSet m

/-- JS `Map.set` keyed by resource uri. -/
def resMapSet (m : List Resource) (r : Resource) : List Resource :=
  if m.any (fun x => x.uri = r.uri) then
    m.map (fun x => if x.uri = r.uri then r else x)
  else m ++ [r]

/-- `for (const resource of resourcesResult.resources) this.resources.set(resource.uri, resource)`. -/
def resMapSetAll (m : List Resource) (rs : List Resource) : List Resource :=
  rs.foldl resMapSet m

/-- `this.tools.has(name)`. -/
def toolsHas (m : List Tool) (name : String) : Bool :=
  m.any (fun x => x.name = name)

/-! ## Client state, options, environment, execution monad -/

/-- The mutable fields of `MCPClient`. `clientSome`/`transportSome`
record whether `this.client`/`this.transport` are non-null (each
successful `new Client(...)`/`createTransport()` produces a fresh
object; only presence is observable in the model). -/
structure ClientState where
  clientSome : Bool
  transportSome : Bool
  tools : List Tool
  resources : List Resource
  connected : Bool
  reconnectAttempt : Nat
  deriving Repr, DecidableEq

/-- The state of a freshly constructed `MCPClient`. -/
def initialClientState : ClientState :=
  { clientSome := false, transportSome := false, tools := [],
    resources := [], connected := false, reconnectAttempt := 0 }

/-- The constructor-resolved numeric options
(`options.connectTimeoutMs ?? 30_000` etc.). -/
structure ResolvedOptions where
  connectTimeoutMs : Nat
  toolTimeoutMs : Nat
  maxReconnectAttempts : Nat
  reconnectBaseMs : Nat
  deriving Repr, DecidableEq

/-- Constructor defaults from src/mcp/client.ts. -/
def resolveOptions (connectTimeoutMs toolTimeoutMs maxReconnectAttempts
    reconnectBaseMs : Option Nat) : ResolvedOptions :=
  { connectTimeoutMs := connectTimeoutMs.getD 30000,
    toolTimeoutMs := toolTimeoutMs.getD 120000,
    maxReconnectAttempts := maxReconnectAttempts.getD 5,
    reconnectBaseMs := reconnectBaseMs.getD 1000 }

/-- Outcome of one invocation of an asynchronous primitive: the promise
fulfills, rejects, or never settles within any relevant deadline. -/
inductive Outcome (α : Type) where
  | ok (a : α)
  | err (e : ErrVal)
  | hang
  deriving Repr, DecidableEq

/-- Per-primitive invocation counters (mirroring how each mocked
primitive in the test suite counts its own calls). -/
structure Counters where
  connectN : Nat
  closeClientN : Nat
  closeTransportN : Nat
  listToolsN : Nat
  listResourcesN : Nat
  callToolN : Nat
  readResourceN : Nat
  deriving Repr, DecidableEq

def counters0 : Counters :=
  { connectN := 0, closeClientN := 0, closeTransportN := 0,
    listToolsN := 0, listResourcesN := 0, callToolN := 0, readResourceN := 0 }

/-- The remote world: what the n-th invocation of each primitive does. -/
structure Env where
  connectR : Nat → Outcome Unit
  closeClientR : Nat → Outcome Unit
  closeTransportR : Nat → Outcome Unit
  listToolsR : Nat → Outcome (List Tool)
  listResourcesR : Nat → Outcome (List Resource)
  callToolR : Nat → Outcome CallToolResult
  readResourceR : Nat → Outcome (List ResContent)

/-- Observable I/O events (remote invocations and sleeps). -/
inductive IOEvent where
  | evConnect
  | evCloseClient
  | evCloseTransport
  | evListTools
  | evListResources
  | evCallTool (name : String)
  | evReadResource (uri : String)
  | evSleep (ms : Nat)
  deriving Repr, DecidableEq

/-- Full execution state: client fields, invocation counters, I/O trace
(appended in order). -/
structure Exec where
  cs : ClientState
  cnt : Counters
  trace : List IOEvent
  deriving Repr, DecidableEq

/-- State-plus-exception monad: an async method body over mutable state
`σ` that can reject with an `ErrVal`. -/
abbrev StEx (σ α : Type) := σ → Except ErrVal α × σ

instance {σ : Type} : Monad (StEx σ) where
  pure a := fun e => (.ok a, e)
  bind x f := fun e =>
    match x e with
    | (.ok a, e') => f a e'
    | (.error err, e') => (.error err, e')

def throwE {σ α : Type} (err : ErrVal) : StEx σ α := fun e => (.error err, e)

/-- `try x catch` block reified as an `Except` result. -/
def attempt {σ α : Type} (x : StEx σ α) : StEx σ (Except ErrVal α) := fun e =>
  match x e with
  | (.ok a, e') => (.ok (.ok a), e')
  | (.error err, e') => (.ok (.error err), e')

/-- The Connection Client's monad. -/
abbrev M (α : Type) := StEx Exec α

def getCS : M ClientState := fun e => (.ok e.cs, e)

def modifyCS (f : ClientState → ClientState) : M Unit :=
  fun e => (.ok (), { e with cs := f e.cs })

/-- `await sleep(ms)` — observable only in the trace. -/
def sleepM (ms : Nat) : M Unit := fun e =>
  (.ok (), { e with trace := e.trace ++ [.evSleep ms] })

/-! Raw primitives: consume the environment's answer for the current
invocation counter and record the I/O event. They return the raw
`Outcome`; `awaitTimeout` / `awaitPlain` below turn it into a monadic
result. -/

def rawConnect (env : Env) : M (Outcome Unit) := fun e =>
  (.ok (env.connectR e.cnt.connectN),
   { e with cnt := { e.cnt with connectN := e.cnt.connectN + 1 },
            trace := e.trace ++ [.evConnect] })

def rawCloseClient (env : Env) : M (Outcome Unit) := fun e =>
  (.ok (env.closeClientR e.cnt.closeClientN),
   { e with cnt := { e.cnt with closeClientN := e.cnt.closeClientN + 1 },
            trace := e.trace ++ [.evCloseClient] })

def rawCloseTransport (env : Env) : M (Outcome Unit) := fun e =>
  (.ok (env.closeTransportR e.cnt.closeTransportN),
   { e with cnt := { e.cnt with closeTransportN := e.cnt.closeTransportN + 1 },
            trace := e.trace ++ [.evCloseTransport] })

def rawListTools (env : Env) : M (Outcome (List Tool)) := fun e =>
  (.ok (env.listToolsR e.cnt.listToolsN),
   { e with cnt := { e.cnt with listToolsN := e.cnt.listToolsN + 1 },
            trace := e.trace ++ [.evListTools] })

def rawListResources (env : Env) : M (Outcome (List Resource)) := fun e =>
  (.ok (env.listResourcesR e.cnt.listResourcesN),
   { e with cnt := { e.cnt with listResourcesN := e.cnt.listResourcesN + 1 },
            trace := e.trace ++ [.evListResources] })

def rawCallTool (env : Env) (name : String) : M (Outcome CallToolResult) := fun e =>
  (.ok (env.callToolR e.cnt.callToolN),
   { e with cnt := { e.cnt with callToolN := e.cnt.callToolN + 1 },
            trace := e.trace ++ [.evCallTool name] })

def rawReadResource (env : Env) (uri : String) : M (Outcome (List ResContent)) := fun e =>
  (.ok (env.readResourceR e.cnt.readResourceN),
   { e with cnt := { e.cnt with readResourceN := e.cnt.readResourceN + 1 },
            trace := e.trace ++ [.evReadResource uri] })

/-- `await withTimeout(promise, ms, label, component)` (utils.ts):
fulfilment passes through, rejection propagates unchanged, and a
promise that has not settled by the deadline raises a `TimeoutError`
carrying the label and `timeoutMs = ms`. -/
def awaitTimeout {α : Type} (o : Outcome α) (ms : Nat) (label : String) : M α :=
  match o with
  | .ok a => pure a
  | .err e => throwE e
  | .hang => throwE (timeoutErr label ms)

/-- A bare `await` with no deadline. A hanging promise here would make
the whole method diverge; we reify that as a distinguished error value
which no theorem's environment ever produces. -/
def awaitPlain {α : Type} (o : Outcome α) : M α :=
  match o with
  | .ok a => pure a
  | .err e => throwE e
  | .hang => throwE (.error "Diverge" "await never settled" none none)

/-! ## MCPClient methods (src/mcp/client.ts)

Each definition is a line-by-line translation of the corresponding
method; the source order of field writes, awaits and throws is
preserved. -/

/-- `discoverCapabilities()`: guard on `this.client`, list tools (a
failure propagates — fatal to the connect attempt), replace the tool
map, then list resources inside a `try` whose `catch` swallows any
failure (so on failure the resource map is left untouched). -/
def discoverM (env : Env) : M Unit := do
  let s ← getCS
  if !s.clientSome then
    throwE (mcpErr "Not connected")
  else do
    let o ← rawListTools env
    let toolsResult ← awaitPlain o
    modifyCS (fun s => { s with tools := toolMapSetAll [] toolsResult })
    let r ← attempt (do
      let o2 ← rawListResources env
      awaitPlain o2)
    match r with
    | .ok resourcesResult =>
        modifyCS (fun s => { s with resources := resMapSetAll [] resourcesResult })
    | .error _ => pure ()

/-- `connect()`: no-op while Connected; otherwise create the transport
and a fresh session object (both fields are set before the handshake),
run the handshake under `withTimeout(connectTimeoutMs)`, wrap a
non-`MCPError` failure in `MCPError('Failed to connect to MCP server')`
with the failure as cause, and on success mark Connected, reset the
reconnect counter and run discovery. -/
def connectM (cfg : ResolvedOptions) (env : Env) : M Unit := do
  let s0 ← getCS
  if s0.connected then
    pure ()
  else do
    modifyCS (fun s => { s with transportSome := true })
    modifyCS (fun s => { s with clientSome := true })
    let r ← attempt (do
      let o ← rawConnect env
      awaitTimeout o cfg.connectTimeoutMs "mcp.connect")
    match r with
    | .error err =>
        throwE (if isMCPError err then err
          else .error "MCPError" "Failed to connect to MCP server" none
            (some (asError err)))
    | .ok _ => do
        modifyCS (fun s => { s with connected := true, reconnectAttempt := 0 })
        discoverM env

/-- `disconnect()`: close session then transport — the awaits are not
wrapped in any `try`, so a rejection propagates out of `disconnect`
before the state is cleared — then mark Disconnected and clear both
maps. -/
def disconnectM (env : Env) : M Unit := do
  let s ← getCS
  if s.clientSome then do
    let o ← rawCloseClient env
    awaitPlain o
    modifyCS (fun s => { s with clientSome := false })
  let s2 ← getCS
  if s2.transportSome then do
    let o ← rawCloseTransport env
    awaitPlain o
    modifyCS (fun s => { s with transportSome := false })
  modifyCS (fun s =>
    { s with connected := false, tools := [], resources := [] })

/-- `reconnect()`: increment the attempt counter; if it now exceeds the
maximum, fail with `MCPError('Max reconnect attempts (max) exceeded')`;
otherwise sleep `base * 2^(attempt-1)` ms, best-effort close session and
transport (errors swallowed), null both fields, mark Disconnected, and
call `connect()` (whose failure propagates to the caller without
resetting the counter). -/
def reconnectM (cfg : ResolvedOptions) (env : Env) : M Unit := do
  modifyCS (fun s => { s with reconnectAttempt := s.reconnectAttempt + 1 })
  let s ← getCS
  if s.reconnectAttempt > cfg.maxReconnectAttempts then
    throwE (mcpErr ("Max reconnect attempts (" ++
      toString cfg.maxReconnectAttempts ++ ") exceeded"))
  else do
    sleepM (cfg.reconnectBaseMs * 2 ^ (s.reconnectAttempt - 1))
    let _ ← attempt (do
      if s.clientSome then do
        let o ← rawCloseClient env
        awaitPlain o
      else pure ())
    let _ ← attempt (do
      if s.transportSome then do
        let o ← rawCloseTransport env
        awaitPlain o
      else pure ())
    modifyCS (fun s =>
      { s with clientSome := false, transportSome := false, connected := false })
    connectM cfg env

/-- `callTool(name, args)`: guard on `this.client` being non-null (note:
not on the `connected` flag), then on the name being in the tool map;
invoke the remote call under `withTimeout(toolTimeoutMs)`. On failure,
if the error matches the transport pattern, `reconnect()` and retry the
remote call exactly once — any failure of the reconnect or of the retry
propagates without further classification; a non-transport error
propagates immediately. -/
def callToolM (cfg : ResolvedOptions) (env : Env) (name : String) :
    M CallToolResult := do
  let s ← getCS
  if !s.clientSome then
    throwE (mcpErr "Not connected")
  else if !(toolsHas s.tools name) then
    throwE (mcpErr ("Unknown tool: " ++ name))
  else do
    let r ← attempt (do
      let o ← rawCallTool env name
      awaitTimeout o cfg.toolTimeoutMs "mcp.callTool")
    match r with
    | .ok result => pure result
    | .error err =>
        if isTransportError err then do
          reconnectM cfg env
          let s2 ← getCS
          if !s2.clientSome then
            throwE (mcpErr "Not connected after reconnect")
          else do
            let o ← rawCallTool env name
            awaitTimeout o cfg.toolTimeoutMs "mcp.callTool"
        else throwE err

/-- `readResource(uri)`: same `this.client` guard, same timeout bound,
same transport-error-triggers-one-reconnect-then-retry policy; on
success returns the first content entry's inline text when present,
otherwise the serialised content list. -/
def readResourceM (cfg : ResolvedOptions) (env : Env) (uri : String) :
    M String := do
  let s ← getCS
  if !s.clientSome then
    throwE (mcpErr "Not connected")
  else do
    let r ← attempt (do
      let o ← rawReadResource env uri
      awaitTimeout o cfg.toolTimeoutMs "mcp.readResource")
    match r with
    | .ok result => pure (resourceText result)
    | .error err =>
        if isTransportError err then do
          reconnectM cfg env
          let s2 ← getCS
          if !s2.clientSome then
            throwE (mcpErr "Not connected after reconnect")
          else do
            let o ← rawReadResource env uri
            let result ← awaitTimeout o cfg.toolTimeoutMs "mcp.readResource"
            pure (resourceText result)
        else throwE err

/-- `isConnected()`. -/
def isConnectedS (s : ClientState) : Bool := s.connected

/-- `getToolCount()` (`this.tools.size`). -/
def getToolCountS (s : ClientState) : Nat := s.tools.length

/-- `getTools()` (`Array.from(this.tools.values())`). -/
def getToolsS (s : ClientState) : List Tool := s.tools

/-- `getResources()`. -/
def getResourcesS (s : ClientState) : List Resource := s.resources

/-! ## JSON values and `JSON.parse` (platform builtin used by `parseReport`)

A faithful executable model of the JSON subset relevant here: objects,
arrays, strings with the common escapes, numbers, booleans, null.
`JSON.parse` rejects trailing garbage; duplicate object keys keep the
last occurrence (modelled in the field lookup). Unicode-escape
surrogate pairing and non-ASCII whitespace are not modelled — no claim
depends on them. -/

inductive Json where
  | jnull
  | jbool (b : Bool)
  /-- A number literal: sign, integer digits, fraction digits, exponent
  text. Only zero-ness is ever observed (JS truthiness). -/
  | jnum (neg : Bool) (ip fp ep : String)
  | jstr (s : String)
  | jarr (xs : List Json)
  | jobj (fields : List (String × Json))

/-- The left and right brace characters. -/
def lbrace : Char := Char.ofNat 123

def rbrace : Char := Char.ofNat 125

/-- JSON token whitespace (the four characters `JSON.parse` skips). -/
def jsonWs (c : Char) : Bool :=
  c = ' ' || c = '\t' || c = '\n' || c = '\r'

/-- JS regex `\s` / `String.trim` whitespace (ASCII part; the Unicode
space characters are irrelevant to the claims). -/
def jsSpace (c : Char) : Bool :=
  c = ' ' || c = '\t' || c = '\n' || c = '\r' ||
  c = Char.ofNat 11 || c = Char.ofNat 12

def hexVal (c : Char) : Option Nat :=
  if '0' ≤ c ∧ c ≤ '9' then some (c.toNat - '0'.toNat)
  else if 'a' ≤ c ∧ c ≤ 'f' then some (c.toNat - 'a'.toNat + 10)
  else if 'A' ≤ c ∧ c ≤ 'F' then some (c.toNat - 'A'.toNat + 10)
  else none

/-- The single-character JSON escapes. -/
def escChar (e : Char) : Option Char :=
  if e = '"' then some '"'
  else if e = '\\' then some '\\'
  else if e = '/' then some '/'
  else if e = 'n' then some '\n'
  else if e = 't' then some '\t'
  else if e = 'r' then some '\r'
  else if e = 'b' then some (Char.ofNat 8)
  else if e = 'f' then some (Char.ofNat 12)
  else none

/-- Scan a JSON string literal body (after the opening quote): returns
the decoded text and the remainder after the closing quote. -/
def scanStr : List Char → Option (List Char × List Char)
  | [] => none
  | c :: rest =>
    if c = '"' then some ([], rest)
    else if c = '\\' then
      match rest with
      | [] => none
      | e :: rest2 =>
        if e = 'u' then
          match rest2 with
          | a :: b :: c2 :: d :: rest3 =>
            match hexVal a, hexVal b, hexVal c2, hexVal d with
            | some x, some y, some z, some w =>
              match scanStr rest3 with
              | some (tail, rem) =>
                some (Char.ofNat (((x * 16 + y) * 16 + z) * 16 + w) :: tail, rem)
              | none => none
            | _, _, _, _ => none
          | _ => none
        else
          match escChar e with
          | some ch =>
            match scanStr rest2 with
            | some (tail, rem) => some (ch :: tail, rem)
            | none => none
          | none => none
    else if c.toNat < 32 then none
    else
      match scanStr rest with
      | some (tail, rem) => some (c :: tail, rem)
      | none => none

/-- Scan the digit sequences of a JSON number after the optional sign:
`int` (`0` or nonzero-led), optional `.digits`, optional exponent.
Returns (intPart, fracPart, expPart, rest). -/
def scanNum (s : List Char) :
    Option (List Char × List Char × List Char × List Char) :=
  let digits := fun (l : List Char) => l.takeWhile Char.isDigit
  match s with
  | [] => none
  | c :: _ =>
    if ¬ c.isDigit then none
    else
      let ip := digits s
      -- leading-zero rule: "0" alone, or first digit nonzero
      if ip.length > 1 ∧ ip.headD '0' = '0' then none
      else
        let rest1 := s.drop ip.length
        let (fp, rest2) :=
          match rest1 with
          | '.' :: t =>
            (digits t, t.drop (digits t).length)
          | _ => ([], rest1)
        if (match rest1 with | '.' :: _ => fp.isEmpty | _ => false) then none
        else
          match rest2 with
          | e :: t =>
            if e = 'e' ∨ e = 'E' then
              let (sgn, t2) :=
                match t with
                | '+' :: u => (['+'], u)
                | '-' :: u => (['-'], u)
                | _ => ([], t)
              let ed := digits t2
              if ed.isEmpty then none
              else some (ip, fp, e :: (sgn ++ ed), t2.drop ed.length)
            else some (ip, fp, [], rest2)
          | [] => some (ip, fp, [], [])

mutual

/-- Recursive-descent JSON value parser (fuel-bounded; fuel ≥ input
length always suffices). Skips leading whitespace itself. -/
def parseVal (fuel : Nat) (s : List Char) : Option (Json × List Char) :=
  match fuel with
  | 0 => none
  | fuel + 1 =>
    let s := s.dropWhile jsonWs
    match s with
    | [] => none
    | c :: rest =>
      if c = lbrace then parseObj fuel rest true []
      else if c = '[' then parseArr fuel rest true []
      else if c = '"' then
        match scanStr rest with
        | some (txt, rem) => some (.jstr (String.mk txt), rem)
        | none => none
      else if leadsWith s "true".toList then some (.jbool true, s.drop 4)
      else if leadsWith s "false".toList then some (.jbool false, s.drop 5)
      else if leadsWith s "null".toList then some (.jnull, s.drop 4)
      else
        let (neg, s2) := if c = '-' then (true, rest) else (false, s)
        match scanNum s2 with
        | some (ip, fp, ep, rem) =>
          some (.jnum neg (String.mk ip) (String.mk fp) (String.mk ep), rem)
        | none => none

/-- Object body parser, after the opening brace. `first` is true before
the first member; `acc` holds members parsed so far in order. -/
def parseObj (fuel : Nat) (s : List Char) (first : Bool)
    (acc : List (String × Json)) : Option (Json × List Char) :=
  match fuel with
  | 0 => none
  | fuel + 1 =>
    let s := s.dropWhile jsonWs
    match s with
    | [] => none
    | c :: rest =>
      if c = rbrace ∧ first then some (.jobj acc.reverse, rest)
      else
        -- after the first member a comma is consumed before the key
        let afterComma : Option (List Char) :=
          if first then some (c :: rest)
          else if c = ',' then some rest else none
        match afterComma with
        | none =>
          if c = rbrace then some (.jobj acc.reverse, rest) else none
        | some s2 =>
          match (s2.dropWhile jsonWs) with
          | '"' :: rest2 =>
            match scanStr rest2 with
            | some (key, rem) =>
              match (rem.dropWhile jsonWs) with
              | ':' :: rest3 =>
                match parseVal fuel rest3 with
                | some (v, rem2) =>
                  parseObj fuel (rem2.dropWhile jsonWs) false
                    ((String.mk key, v) :: acc)
                | none => none
              | _ => none
            | none => none
          | _ => none

/-- Array body parser, after the opening bracket. -/
def parseArr (fuel : Nat) (s : List Char) (first : Bool)
    (acc : List Json) : Option (Json × List Char) :=
  match fuel with
  | 0 => none
  | fuel + 1 =>
    let s := s.dropWhile jsonWs
    match s with
    | [] => none
    | c :: rest =>
      if c = ']' ∧ first then some (.jarr acc.reverse, rest)
      else
        let afterComma : Option (List Char) :=
          if first then some (c :: rest)
          else if c = ',' then some rest else none
        match afterComma with
        | none => if c = ']' then some (.jarr acc.reverse, rest) else none
        | some s2 =>
          match parseVal fuel s2 with
          | some (v, rem) => parseArr fuel (rem.dropWhile jsonWs) false (v :: acc)
          | none => none

end

/-- `JSON.parse`: parse one value, allow surrounding whitespace, reject
trailing garbage. -/
def jsonParse (s : List Char) : Option Json :=
  match parseVal (s.length + 1) s with
  | some (v, rem) => if (rem.dropWhile jsonWs).isEmpty then some v else none
  | none => none

/-- Last-occurrence field lookup on a parsed object (JS object literals
keep the last duplicate key); on any non-object the property access
yields `undefined`. -/
def getFieldJ (v : Json) (k : String) : Option Json :=
  match v with
  | .jobj fields => (fields.filter (fun f => f.1 = k)).getLast?.map (·.2)
  | _ => none

/-- JS truthiness of a (possibly absent) JSON value: `undefined`,
`null`, `false`, `0` and `""` are falsy; everything else (including
empty arrays and objects) is truthy. -/
def truthy : Option Json → Bool
  | none => false
  | some .jnull => false
  | some (.jbool b) => b
  | some (.jnum _ ip fp _) =>
    ¬ ((ip.toList ++ fp.toList).all (fun c => c = '0'))
  | some (.jstr s) => ¬ s.isEmpty
  | some (.jarr _) => true
  | some (.jobj _) => true

/-- `Array.isArray` on a (possibly absent) field. -/
def isArrJ : Option Json → Bool
  | some (.jarr _) => true
  | _ => false

/-! ## `parseReport` (src/claude/agent.ts) -/

/-- `breakAtPat pat s`: splits `s` at the first occurrence of `pat`,
returning the part before and the part after the occurrence. -/
def breakAtPat (pat : List Char) : List Char → Option (List Char × List Char)
  | [] => if leadsWith [] pat then some ([], []) else none
  | c :: rest =>
    if leadsWith (c :: rest) pat then some ([], (c :: rest).drop pat.length)
    else
      match breakAtPat pat rest with
      | some (pre, post) => some (c :: pre, post)
      | none => none

def fencePat : List Char := "```".toList

def jsonWord : List Char := "json".toList

/-- Group 1 of the first match of the fence regex
`/```(?:json)?\s*([\s\S]*?)```/`: scan for the first opening fence that
has a closing fence after it; after the opening fence, greedily consume
a literal `json` and then whitespace; the group runs up to the first
closing fence. -/
def fencedGroup : List Char → Option (List Char)
  | [] => none
  | c :: rest =>
    if leadsWith (c :: rest) fencePat then
      let after := (c :: rest).drop 3
      let after2 := if leadsWith after jsonWord then after.drop 4 else after
      let after3 := after2.dropWhile jsSpace
      match breakAtPat fencePat after3 with
      | some (grp, _) => some grp
      | none => fencedGroup rest
    else fencedGroup rest

/-- `String.prototype.trim` (ASCII whitespace suffices here). -/
def jsTrim (s : List Char) : List Char :=
  ((s.dropWhile jsSpace).reverse.dropWhile jsSpace).reverse

/-- Index of the first occurrence of `c` (JS `indexOf` without the -1
encoding). -/
def idxOfChar (c : Char) : List Char → Option Nat
  | [] => none
  | x :: rest =>
    if x = c then some 0
    else (idxOfChar c rest).map (· + 1)

/-- Index of the last occurrence of `c` (JS `lastIndexOf`). -/
def lastIdxOfChar (c : Char) (s : List Char) : Option Nat :=
  (idxOfChar c s.reverse).map (fun i => s.length - 1 - i)

/-- `json.slice(braceStart, braceEnd + 1)` guarded by the two index
checks of the source: `none` when either brace is absent. (The source
does not check `braceStart < braceEnd`; a reversed pair yields an empty
slice, which then fails to parse.) -/
def braceSpan (s : List Char) : Option (List Char) :=
  match idxOfChar lbrace s, lastIdxOfChar rbrace s with
  | some i, some j => some ((s.take (j + 1)).drop i)
  | _, _ => none

/-- `parseReport(text)` (src/claude/agent.ts): strip an optional fenced
block, take the span from the first left brace to the last right brace,
`JSON.parse` it, and accept the value only when `parsed.summary` and
`parsed.overallStatus` are truthy and `parsed.findings` is an array;
every failure path yields `null`, never an exception. The returned
report is the parsed value itself (no field is projected or altered). -/
def parseReport (text : String) : Option Json :=
  if (jsTrim text.toList).isEmpty then none
  else
    match braceSpan ((fencedGroup text.toList).getD text.toList) with
    | none => none
    | some span =>
      match jsonParse span with
      | none => none
      | some parsed =>
        if truthy (getFieldJ parsed "summary") &&
           truthy (getFieldJ parsed "overallStatus") &&
           isArrJ (getFieldJ parsed "findings") then
          some parsed
        else none

/-! ## Orchestration loop (src/claude/agent.ts)

The Bedrock backend and the MCP client boundary are modelled as
oracles: the n-th `ConverseCommand` send and the n-th
`mcpClient.callTool` invocation take their outcome from the
environment. (Every remote await inside `MCPClient.callTool` is bounded
by `withTimeout`, so from the agent's side a tool call always settles:
its outcome is a fulfilment or a rejection.) -/

/-- Constants of src/claude/agent.ts. -/
def retryAttempts : Nat := 3

def retryBaseMs : Nat := 2000

def toolCallDelayMs : Nat := 500

/-- One content block of a Bedrock message. -/
inductive CBlock where
  | textB (t : String)
  | toolUseB (id : String) (tname : String)
  | toolResultB (toolUseId : String) (rtext : String) (isErr : Bool)
  | otherB (repr : String)
  deriving Repr, DecidableEq

/-- A conversation message. -/
structure AgentMsg where
  role : String
  content : List CBlock
  deriving Repr, DecidableEq

structure TokenUsage where
  inputTokens : Nat
  outputTokens : Nat
  totalTokens : Nat
  deriving Repr, DecidableEq

/-- `response.usage` (both fields optional,
defaulted to 0 via `?? 0`). -/
structure UsageR where
  inputTokens : Option Nat
  outputTokens : Option Nat
  deriving Repr, DecidableEq

/-- A Bedrock `converse` response: `output?.message?.content ?? []`
flattened to the content list, plus stop reason and usage. -/
structure ConverseResponse where
  usage : Option UsageR
  stopReason : Option String
  content : List CBlock
  deriving Repr, DecidableEq

/-- Outcome of one `mcpClient.callTool` awaited by the agent. -/
inductive ToolOutcome where
  | okR (r : CallToolResult)
  | thrown (e : ErrVal)
  deriving Repr, DecidableEq

/-- The agent's environment: the n-th backend request's outcome
(`hang` = the abort timer fires first) and the n-th tool call's
outcome. -/
structure AgentEnv where
  converseR : Nat → Outcome ConverseResponse
  toolR : Nat → ToolOutcome

/-- State of one `executeAgentLoop` invocation: the conversation, the
counters, the oracle cursors, and the backoff/throttle sleeps
performed. -/
structure AgentSt where
  messages : List AgentMsg
  rounds : Nat
  toolCallCount : Nat
  usage : TokenUsage
  converseN : Nat
  toolN : Nat
  sleeps : List Nat
  deriving Repr, DecidableEq

/-- The agent's monad. -/
abbrev AM (α : Type) := StEx AgentSt α

def pushMsg (m : AgentMsg) : AM Unit :=
  fun st => (.ok (), { st with messages := st.messages ++ [m] })

def nextConverse (env : AgentEnv) : AM (Outcome ConverseResponse) :=
  fun st => (.ok (env.converseR st.converseN),
    { st with converseN := st.converseN + 1 })

def nextTool (env : AgentEnv) : AM ToolOutcome :=
  fun st => (.ok (env.toolR st.toolN), { st with toolN := st.toolN + 1 })

def agentSleep (ms : Nat) : AM Unit :=
  fun st => (.ok (), { st with sleeps := st.sleeps ++ [ms] })

def bumpToolCallCount : AM Unit :=
  fun st => (.ok (), { st with toolCallCount := st.toolCallCount + 1 })

def bumpRounds : AM Unit :=
  fun st => (.ok (), { st with rounds := st.rounds + 1 })

/-- `new BedrockError('Bedrock request timed out after ...ms', ...)`
thrown when the abort signal fired. -/
def bedrockTimeoutErr (timeoutMs : Nat) : ErrVal :=
  .error "BedrockError"
    ("Bedrock request timed out after " ++ toString timeoutMs ++ "ms") none none

/-- `content.filter(b => 'text' in b).map(b => b.text).join('\n')`. -/
def textJoin (blocks : List CBlock) : String :=
  String.intercalate "\n" (blocks.filterMap (fun b =>
    match b with
    | .textB t => some t
    | _ => none))

/-- The tool-use blocks of a response, in order, as (toolUseId, name). -/
def toolUseBlocksOf (blocks : List CBlock) : List (String × String) :=
  blocks.filterMap (fun b =>
    match b with
    | .toolUseB id n => some (id, n)
    | _ => none)

/-- Stand-in for `JSON.stringify(c)` applied to a non-text content item. -/
def serializeItem (c : ContentItem) : String :=
  "\x7btype:" ++ c.ctype ++ ",text:" ++ c.ctext ++ "\x7d"

/-- `result.content.map(c => c.type === 'text' ? c.text : JSON.stringify(c)).join('\n')`. -/
def resultToText (r : CallToolResult) : String :=
  String.intercalate "\n" (r.content.map (fun c =>
    if c.ctype = "text" then c.ctext else serializeItem c))

/-- The value a tool call contributes to the conversation. -/
structure ToolEntry where
  etext : String
  eIsError : Bool
  deriving Repr, DecidableEq

/-- `callToolWithRetry` unrolled: `attempt` is the 1-based attempt
number, the fuel argument counts the remaining loop iterations
(initially `retryAttempts`). A fulfilled call whose error flag is set
and whose text matches the rate-limit pattern, or a rejection whose
message matches the rate-limit pattern, is retried (with exponential
backoff) while `attempt < retryAttempts`; a fulfilled call otherwise
yields its joined text and error flag; any other rejection yields
`Error: <message>` with the error flag set — the wrapper rethrows
nothing. -/
def callToolRetryAux (env : AgentEnv) : Nat → Nat → AM ToolEntry
  | _, 0 => pure { etext := "Error: max retries exceeded", eIsError := true }
  | attempt, fuel + 1 => do
    let o ← nextTool env
    match o with
    | .okR result =>
      let text := resultToText result
      if result.isError.getD false ∧ matchesAlt rateLimitAlts text ∧
          attempt < retryAttempts then do
        agentSleep (retryBaseMs * 2 ^ (attempt - 1))
        callToolRetryAux env (attempt + 1) fuel
      else
        pure { etext := text, eIsError := result.isError.getD false }
    | .thrown e =>
      if matchesAlt rateLimitAlts e.msg ∧ attempt < retryAttempts then do
        agentSleep (retryBaseMs * 2 ^ (attempt - 1))
        callToolRetryAux env (attempt + 1) fuel
      else
        pure { etext := "Error: " ++ e.msg, eIsError := true }

def callToolWithRetry (env : AgentEnv) : AM ToolEntry :=
  callToolRetryAux env 1 retryAttempts

/-- The tool-execution loop of `executeRound`: an inter-call throttle
sleep before every call but the first, a counter increment per call,
and the collected tool-result blocks in request order. -/
def runToolCalls (env : AgentEnv) : Bool → List (String × String) → AM (List CBlock)
  | _, [] => pure []
  | isFirst, (id, _name) :: rest => do
    if isFirst then pure () else agentSleep toolCallDelayMs
    bumpToolCallCount
    let entry ← callToolWithRetry env
    let tail ← runToolCalls env false rest
    pure (.toolResultB id entry.etext entry.eIsError :: tail)

/-- The round outcome (`{ done, rawText? }`). -/
structure RoundRes where
  rdone : Bool
  rawText : Option String
  deriving Repr, DecidableEq

/-- Fold one round's usage into the running totals
(`inputTokens += usage.inputTokens ?? 0` etc.;
`totalTokens = inputTokens + outputTokens`). -/
def accumUsage (t : TokenUsage) (u : UsageR) : TokenUsage :=
  let i := t.inputTokens + u.inputTokens.getD 0
  let o := t.outputTokens + u.outputTokens.getD 0
  { inputTokens := i, outputTokens := o, totalTokens := i + o }

/-- `if (response.usage) { tokenUsage.inputTokens += ...; ... }`. -/
def addUsage (u : Option UsageR) : AM Unit := fun st =>
  (.ok (), { st with usage := match u with
    | some x => accumUsage st.usage x
    | none => st.usage })

/-- `executeRound`: send the conversation (a `hang` outcome means the
abort timer fired first and surfaces as the Bedrock-timeout error; any
rejection propagates), accumulate usage, append the assistant message,
then: terminal (`end_turn` or no tool-use blocks) returns the joined
text; otherwise run the requested tool calls and append their results
as a user message. Every throw precedes the assistant append. -/
def executeRound (env : AgentEnv) (timeoutMs : Nat) : AM RoundRes := do
  let o ← nextConverse env
  let response ←
    match o with
    | .ok r => pure r
    | .err e => throwE e
    | .hang => throwE (bedrockTimeoutErr timeoutMs)
  addUsage response.usage
  pushMsg { role := "assistant", content := response.content }
  if response.stopReason = some "end_turn" then
    pure { rdone := true, rawText := some (textJoin response.content) }
  else
    let tub := toolUseBlocksOf response.content
    if tub.isEmpty then
      pure { rdone := true, rawText := some (textJoin response.content) }
    else do
      let results ← runToolCalls env true tub
      pushMsg { role := "user", content := results }
      pure { rdone := false, rawText := none }

/-- `executeRoundWithRetry` unrolled like `callToolRetryAux`: a round
failure matching the rate-limit pattern is retried (backoff) while
attempts remain; any other failure rethrows. -/
def roundRetryAux (env : AgentEnv) (timeoutMs : Nat) : Nat → Nat → AM RoundRes
  | _, 0 => pure { rdone := false, rawText := none }
  | attempt, fuel + 1 => fun st =>
    match executeRound env timeoutMs st with
    | (.ok r, st') => (.ok r, st')
    | (.error e, st') =>
      if matchesAlt rateLimitAlts e.msg ∧ attempt < retryAttempts then
        (do
          agentSleep (retryBaseMs * 2 ^ (attempt - 1))
          roundRetryAux env timeoutMs (attempt + 1) fuel) st'
      else (.error e, st')

def executeRoundWithRetry (env : AgentEnv) (timeoutMs : Nat) : AM RoundRes :=
  roundRetryAux env timeoutMs 1 retryAttempts

/-- The run result (`AgentResult` with the report as parsed JSON). -/
structure AgentResultM where
  report : Option Json
  rawText : String
  toolCallCount : Nat
  rounds : Nat
  usage : TokenUsage

/-- `messages.filter(m => m.role === 'assistant').pop()` followed by the
text-block join, with `'' ` when there is no assistant message. -/
def lastAssistantText (messages : List AgentMsg) : String :=
  match (messages.filter (fun m => m.role = "assistant")).getLast? with
  | some m => textJoin m.content
  | none => ""

def mkAgentResult (raw : String) : AM AgentResultM := fun st =>
  (.ok { report := parseReport raw, rawText := raw,
         toolCallCount := st.toolCallCount, rounds := st.rounds,
         usage := st.usage }, st)

/-- The `while (rounds < maxToolRounds)` loop, with fuel
`maxToolRounds - rounds`: each iteration increments `rounds` and runs
one retry-wrapped round; a terminal round with defined text returns the
result; fuel exhaustion falls through to the max-rounds epilogue, which
returns the last assistant message's text (no error). -/
def agentLoopAux (env : AgentEnv) (timeoutMs : Nat) : Nat → AM AgentResultM
  | 0 => do
    let st ← fun st => (.ok st, st)
    mkAgentResult (lastAssistantText st.messages)
  | fuel + 1 => do
    bumpRounds
    let rr ← executeRoundWithRetry env timeoutMs
    if rr.rdone then
      match rr.rawText with
      | some raw => mkAgentResult raw
      | none => agentLoopAux env timeoutMs fuel
    else
      agentLoopAux env timeoutMs fuel

/-- The conversation as built at the top of `executeAgentLoop`. -/
def initialAgentSt (userMessage : String) : AgentSt :=
  { messages := [{ role := "user", content := [.textB userMessage] }],
    rounds := 0, toolCallCount := 0,
    usage := { inputTokens := 0, outputTokens := 0, totalTokens := 0 },
    converseN := 0, toolN := 0, sleeps := [] }

/-- `executeAgentLoop` for a given `maxToolRounds` and request timeout
(`options.requestTimeoutMs ?? 120_000` resolved by the caller). -/
def executeAgentLoop (env : AgentEnv) (maxToolRounds timeoutMs : Nat) :
    AM AgentResultM :=
  agentLoopAux env timeoutMs maxToolRounds

/-! ## Run lemmas for symbolic execution of the monadic models -/

@[simp]
theorem run_pure {σ α : Type} (a : α) (s : σ) :
    (pure a : StEx σ α) s = (.ok a, s) := rfl

@[simp]
theorem run_bind {σ α β : Type} (x : StEx σ α) (f : α → StEx σ β) (s : σ) :
    (x >>= f) s =
      (match x s with
       | (.ok a, s') => f a s'
       | (.error e, s') => (.error e, s')) := rfl

@[simp]
theorem run_throwE {σ α : Type} (err : ErrVal) (s : σ) :
    (throwE err : StEx σ α) s = (.error err, s) := rfl

@[simp]
theorem run_attempt {σ α : Type} (x : StEx σ α) (s : σ) :
    attempt x s =
      (match x s with
       | (.ok a, s') => (.ok (.ok a), s')
       | (.error e, s') => (.ok (.error e), s')) := rfl

@[simp]
theorem run_getCS (e : Exec) : getCS e = (.ok e.cs, e) := rfl

@[simp]
theorem run_modifyCS (f : ClientState → ClientState) (e : Exec) :
    modifyCS f e = (.ok (), { e with cs := f e.cs }) := rfl

@[simp]
theorem run_sleepM (ms : Nat) (e : Exec) :
    sleepM ms e = (.ok (), { e with trace := e.trace ++ [.evSleep ms] }) := rfl

@[simp]
theorem run_rawConnect (env : Env) (e : Exec) :
    rawConnect env e =
      (.ok (env.connectR e.cnt.connectN),
       { e with cnt := { e.cnt with connectN := e.cnt.connectN + 1 },
                trace := e.trace ++ [.evConnect] }) := rfl

@[simp]
theorem run_rawCloseClient (env : Env) (e : Exec) :
    rawCloseClient env e =
      (.ok (env.closeClientR e.cnt.closeClientN),
       { e with cnt := { e.cnt with closeClientN := e.cnt.closeClientN + 1 },
                trace := e.trace ++ [.evCloseClient] }) := rfl

@[simp]
theorem run_rawCloseTransport (env : Env) (e : Exec) :
    rawCloseTransport env e =
      (.ok (env.closeTransportR e.cnt.closeTransportN),
       { e with cnt := { e.cnt with closeTransportN := e.cnt.closeTransportN + 1 },
                trace := e.trace ++ [.evCloseTransport] }) := rfl

@[simp]
theorem run_rawListTools (env : Env) (e : Exec) :
    rawListTools env e =
      (.ok (env.listToolsR e.cnt.listToolsN),
       { e with cnt := { e.cnt with listToolsN := e.cnt.listToolsN + 1 },
                trace := e.trace ++ [.evListTools] }) := rfl

@[simp]
theorem run_rawListResources (env : Env) (e : Exec) :
    rawListResources env e =
      (.ok (env.listResourcesR e.cnt.listResourcesN),
       { e with cnt := { e.cnt with listResourcesN := e.cnt.listResourcesN + 1 },
                trace := e.trace ++ [.evListResources] }) := rfl

@[simp]
theorem run_rawCallTool (env : Env) (name : String) (e : Exec) :
    rawCallTool env name e =
      (.ok (env.callToolR e.cnt.callToolN),
       { e with cnt := { e.cnt with callToolN := e.cnt.callToolN + 1 },
                trace := e.trace ++ [.evCallTool name] }) := rfl

@[simp]
theorem run_rawReadResource (env : Env) (uri : String) (e : Exec) :
    rawReadResource env uri e =
      (.ok (env.readResourceR e.cnt.readResourceN),
       { e with cnt := { e.cnt with readResourceN := e.cnt.readResourceN + 1 },
                trace := e.trace ++ [.evReadResource uri] }) := rfl

/-! ## Shared concrete fixtures for counterexamples and witnesses -/

/-- Small timeouts/backoffs (as the test suite uses). -/
def cfg50 : ResolvedOptions :=
  { connectTimeoutMs := 50, toolTimeoutMs := 100,
    maxReconnectAttempts := 5, reconnectBaseMs := 1 }

/-- An environment whose connect handshake never settles and whose
remote reads succeed. -/
def envHangConnect : Env :=
  { connectR := fun _ => .hang,
    closeClientR := fun _ => .ok (), closeTransportR := fun _ => .ok (),
    listToolsR := fun _ => .ok [], listResourcesR := fun _ => .ok [],
    callToolR := fun _ => .ok { content := [{ ctype := "text", ctext := "x" }],
                                isError := some false },
    readResourceR := fun _ => .ok [.withText "resource-data"] }

/-- A freshly constructed client (no connect attempted yet). -/
def freshExec : Exec :=
  { cs := initialClientState, cnt := counters0, trace := [] }

/-- The client state after one failed (timed-out) connect attempt. -/
def execAfterFailedConnect : Exec :=
  (attempt (connectM cfg50 envHangConnect) freshExec).2

/-- `if isMCPError ce then ce else MCPError('Failed to connect to MCP server', cause ce)` —
what `connect()` rejects with when the handshake fails with `ce`. -/
def connectFailErr (ce : ErrVal) : ErrVal :=
  if isMCPError ce then ce
  else .error "MCPError" "Failed to connect to MCP server" none (some (asError ce))

/-! ## Claim C1 -/

/-- **C1, counterexample.** The claim asserts that `callTool`/`readResource`
fail with the not-connected error and perform no I/O in *every*
Disconnected state, "including the state reached after a failed or
timed-out connect attempt". In the state reached after a timed-out
connect attempt, `isConnected()` is false, yet `readResource` does not
fail with the not-connected error: it performs the remote read (the
trace gains a read event) and returns its result, because the guard in
the source tests `this.client === null`, and the failed connect left
`this.client` set. -/
theorem C1_counterexample_io_after_failed_connect :
    isConnectedS execAfterFailedConnect.cs = false ∧
    (readResourceM cfg50 envHangConnect "test://res" execAfterFailedConnect).1 =
      .ok "resource-data" ∧
    (readResourceM cfg50 envHangConnect "test://res" execAfterFailedConnect).2.trace =
      [.evConnect, .evReadResource "test://res"] :=
  ⟨rfl, rfl, rfl⟩

/-- **C1 (amended).** For every tool name and resource uri, calling
`callTool` or `readResource` while the internal session field is null —
which is the case in the initial Disconnected state and after
`disconnect()`, but *not* after a failed or timed-out connect attempt —
fails with the `MCPError('Not connected')` error, performs no I/O, and
leaves the whole state unchanged. -/
theorem C1_notConnected_guard (cfg : ResolvedOptions) (env : Env) (e : Exec)
    (name uri : String) (hclient : e.cs.clientSome = false) :
    callToolM cfg env name e = (.error (mcpErr "Not connected"), e) ∧
    readResourceM cfg env uri e = (.error (mcpErr "Not connected"), e) := by
  unfold callToolM readResourceM
  simp [hclient]

/-- **C1, witness.** The guard at the freshly constructed client. -/
theorem C1_notConnected_guard_witness :
    callToolM cfg50 envHangConnect "getFleetOverview" freshExec =
      (.error (mcpErr "Not connected"), freshExec) ∧
    readResourceM cfg50 envHangConnect "test://res" freshExec =
      (.error (mcpErr "Not connected"), freshExec) :=
  C1_notConnected_guard cfg50 envHangConnect freshExec
    "getFleetOverview" "test://res" rfl

/-! ## Claim C2 -/

/-- Per-claim helper: `j` successive top-level `callTool` invocations,
each failure observed by the caller (`attempt`). -/
def repeatCallTool (cfg : ResolvedOptions) (env : Env) (name : String) :
    Nat → M Unit
  | 0 => pure ()
  | j + 1 => do
    let _ ← attempt (callToolM cfg env name)
    repeatCallTool cfg env name j

/-- Helper: one `callTool` whose remote call fails with a
transport-pattern error and whose reconnect's connect handshake fails:
the call rejects with the connect failure, and the reconnect counter is
incremented and not reset. -/
theorem callTool_failedHandshake_step (cfg : ResolvedOptions) (env : Env)
    (name : String) (te ce : ErrVal) (e : Exec)
    (hclient : e.cs.clientSome = true)
    (htrans : e.cs.transportSome = true)
    (htool : toolsHas e.cs.tools name = true)
    (hlt : e.cs.reconnectAttempt < cfg.maxReconnectAttempts)
    (hremote : ∀ k, env.callToolR k = .err te)
    (hte : isTransportError te = true)
    (hconn : ∀ k, env.connectR k = .err ce)
    (hclose1 : ∀ k, env.closeClientR k = .ok ())
    (hclose2 : ∀ k, env.closeTransportR k = .ok ()) :
    (callToolM cfg env name e).1 = .error (connectFailErr ce) ∧
    (callToolM cfg env name e).2.cs.clientSome = true ∧
    (callToolM cfg env name e).2.cs.transportSome = true ∧
    (callToolM cfg env name e).2.cs.tools = e.cs.tools ∧
    (callToolM cfg env name e).2.cs.reconnectAttempt = e.cs.reconnectAttempt + 1 ∧
    (callToolM cfg env name e).2.cs.connected = false := by
  have hnotgt : ¬ (e.cs.reconnectAttempt + 1 > cfg.maxReconnectAttempts) := by omega
  simp [callToolM, reconnectM, connectM, awaitTimeout, awaitPlain, connectFailErr,
    hclient, htrans, htool, hremote, hconn, hclose1, hclose2, hte, hnotgt]

/-- Helper: the state evolution across `j` such calls: the counter
accumulates one increment per call, and the guard fields are preserved. -/
theorem repeatCallTool_invariant (cfg : ResolvedOptions) (env : Env)
    (name : String) (te ce : ErrVal)
    (hremote : ∀ k, env.callToolR k = .err te)
    (hte : isTransportError te = true)
    (hconn : ∀ k, env.connectR k = .err ce)
    (hclose1 : ∀ k, env.closeClientR k = .ok ())
    (hclose2 : ∀ k, env.closeTransportR k = .ok ()) :
    ∀ (j : Nat) (e : Exec),
    e.cs.clientSome = true →
    e.cs.transportSome = true →
    toolsHas e.cs.tools name = true →
    e.cs.reconnectAttempt + j ≤ cfg.maxReconnectAttempts →
    (repeatCallTool cfg env name j e).2.cs.clientSome = true ∧
    (repeatCallTool cfg env name j e).2.cs.transportSome = true ∧
    (repeatCallTool cfg env name j e).2.cs.tools = e.cs.tools ∧
    (repeatCallTool cfg env name j e).2.cs.reconnectAttempt =
      e.cs.reconnectAttempt + j := by
  intro j
  induction j with
  | zero =>
    intro e h1 h2 h3 _
    simp [repeatCallTool, h1, h2, h3]
  | succ j ih =>
    intro e h1 h2 h3 hle
    have hlt : e.cs.reconnectAttempt < cfg.maxReconnectAttempts := by omega
    obtain ⟨_, hb, hc, hd, he2, _⟩ :=
      callTool_failedHandshake_step cfg env name te ce e h1 h2 h3 hlt
        hremote hte hconn hclose1 hclose2
    have hrun : repeatCallTool cfg env name (j + 1) e =
        repeatCallTool cfg env name j (callToolM cfg env name e).2 := by
      simp [repeatCallTool]
      rcases hstep : callToolM cfg env name e with ⟨r, e'⟩
      cases r <;> simp
    rw [hrun]
    have htools : toolsHas (callToolM cfg env name e).2.cs.tools name = true := by
      rw [hd]; exact h3
    have hle2 : (callToolM cfg env name e).2.cs.reconnectAttempt + j ≤
        cfg.maxReconnectAttempts := by omega
    obtain ⟨x1, x2, x3, x4⟩ := ih (callToolM cfg env name e).2 hb hc htools hle2
    refine ⟨x1, x2, ?_, ?_⟩
    · rw [x3, hd]
    · omega

/-- Fixture for the C2 counterexample: connect handshakes always
succeed, the tool listing succeeds only for the first discovery, every
remote tool call fails with a transport-pattern error. -/
def envDisc : Env :=
  { connectR := fun _ => .ok (),
    closeClientR := fun _ => .ok (), closeTransportR := fun _ => .ok (),
    listToolsR := fun n =>
      if n = 0 then .ok [{ name := "t", description := "d" }]
      else .err (.error "Error" "boom" none none),
    listResourcesR := fun _ => .ok [],
    callToolR := fun _ => .err (.error "Error" "ECONNRESET" none none),
    readResourceR := fun _ => .ok [] }

def cfgDisc : ResolvedOptions :=
  { connectTimeoutMs := 30000, toolTimeoutMs := 120000,
    maxReconnectAttempts := 5, reconnectBaseMs := 1 }

/-- The C2 counterexample run: connect, then one `callTool` observed by
the caller. -/
def runDisc : Except ErrVal (Except ErrVal CallToolResult) × Exec :=
  (connectM cfgDisc envDisc >>= fun _ =>
    attempt (callToolM cfgDisc envDisc "t")) freshExec

/-- **C2, counterexample.** The claim asserts the counter "is reset to 0
only on a successful connect; when a reconnect's own connect fails the
counter is not reset". In the source, `connect()` resets the counter as
soon as the handshake succeeds and only *then* runs discovery, whose
tool-listing failure is fatal to the connect attempt. Concretely: after
a successful initial connect, a transport error on `callTool` triggers
a reconnect whose `connect()` fails (the call rejects with the
discovery error "boom" — env index 1 of the tool listing), yet the
reconnect-attempt counter ends at 0: it was reset by a failed connect.
The trace shows the reconnect (sleep, teardown, handshake, listing). -/
theorem C2_counterexample_reset_on_failed_connect :
    runDisc.1 = .ok (.error (.error "Error" "boom" none none)) ∧
    runDisc.2.cs.reconnectAttempt = 0 ∧
    runDisc.2.trace =
      [.evConnect, .evListTools, .evListResources, .evCallTool "t",
       .evSleep 1, .evCloseClient, .evCloseTransport, .evConnect, .evListTools] := by
  refine ⟨?_, ?_, ?_⟩ <;> rfl

/-- **C2 (amended).** The reconnect counter is incremented on every
reconnect attempt and reset to 0 as soon as a connect handshake
completes (even if the connect attempt then fails during discovery);
when a reconnect's connect *handshake* fails the counter is not reset;
so with `maxReconnectAttempts = N` and every call producing a transport
error followed by a reconnect whose connect handshake fails, after `N`
such calls the counter is `N` and the `(N+1)`-th reconnect attempt
fails fatally with `MCPError('Max reconnect attempts (N) exceeded')`. -/
theorem C2_reconnect_counter_exhaustion (cfg : ResolvedOptions) (env : Env)
    (name : String) (te ce : ErrVal) (e : Exec) (N : Nat)
    (hmax : cfg.maxReconnectAttempts = N)
    (hclient : e.cs.clientSome = true)
    (htrans : e.cs.transportSome = true)
    (htool : toolsHas e.cs.tools name = true)
    (hcount : e.cs.reconnectAttempt = 0)
    (hremote : ∀ k, env.callToolR k = .err te)
    (hte : isTransportError te = true)
    (hconn : ∀ k, env.connectR k = .err ce)
    (hclose1 : ∀ k, env.closeClientR k = .ok ())
    (hclose2 : ∀ k, env.closeTransportR k = .ok ()) :
    -- each in-budget call rejects with the connect failure, incrementing
    -- the counter by exactly one (no reset):
    (∀ e' : Exec, e'.cs.clientSome = true → e'.cs.transportSome = true →
      toolsHas e'.cs.tools name = true →
      e'.cs.reconnectAttempt < N →
      (callToolM cfg env name e').1 = .error (connectFailErr ce) ∧
      (callToolM cfg env name e').2.cs.reconnectAttempt =
        e'.cs.reconnectAttempt + 1) ∧
    -- after N such calls the counter is N:
    (repeatCallTool cfg env name N e).2.cs.reconnectAttempt = N ∧
    -- and the (N+1)-th reconnect attempt fails fatally:
    (callToolM cfg env name (repeatCallTool cfg env name N e).2).1 =
      .error (mcpErr ("Max reconnect attempts (" ++ toString N ++ ") exceeded")) ∧
    -- while a connect whose handshake and discovery succeed resets the counter:
    (∀ (env2 : Env) (e2 : Exec) (ts : List Tool) (rs : List Resource),
      e2.cs.connected = false →
      env2.connectR e2.cnt.connectN = .ok () →
      env2.listToolsR e2.cnt.listToolsN = .ok ts →
      env2.listResourcesR e2.cnt.listResourcesN = .ok rs →
      (connectM cfg env2 e2).1 = .ok () ∧
      (connectM cfg env2 e2).2.cs.reconnectAttempt = 0) := by
  subst hmax
  obtain ⟨i1, i2, i3, i4⟩ := repeatCallTool_invariant cfg env name te ce
    hremote hte hconn hclose1 hclose2 cfg.maxReconnectAttempts e
    hclient htrans htool (by omega)
  refine ⟨?_, ?_, ?_, ?_⟩
  · intro e' h1 h2 h3 hlt
    obtain ⟨a, _, _, _, b, _⟩ :=
      callTool_failedHandshake_step cfg env name te ce e' h1 h2 h3 hlt
        hremote hte hconn hclose1 hclose2
    exact ⟨a, b⟩
  · omega
  · have hcnt : (repeatCallTool cfg env name cfg.maxReconnectAttempts e).2.cs.reconnectAttempt =
        cfg.maxReconnectAttempts := by omega
    have hgt : cfg.maxReconnectAttempts + 1 > cfg.maxReconnectAttempts :=
      Nat.lt_succ_self _
    have htools2 : toolsHas
        (repeatCallTool cfg env name cfg.maxReconnectAttempts e).2.cs.tools name = true := by
      rw [i3]; exact htool
    simp [callToolM, reconnectM, awaitTimeout, i1, htools2, hremote, hte, hcnt, hgt]
  · intro env2 e2 ts rs hnc hok hlt hlr
    constructor
    · simp [connectM, discoverM, awaitTimeout, awaitPlain, hnc, hok, hlt, hlr]
    · simp [connectM, discoverM, awaitTimeout, awaitPlain, hnc, hok, hlt, hlr]

/-- Witness fixtures: a transport error value and a refused-connection
error value. -/
def teW : ErrVal := .error "Error" "ECONNRESET" none none

def ceW : ErrVal := .error "Error" "ECONNREFUSED" none none

/-- Environment for establishing the initial connection in witnesses. -/
def envSetupW : Env :=
  { connectR := fun _ => .ok (),
    closeClientR := fun _ => .ok (), closeTransportR := fun _ => .ok (),
    listToolsR := fun _ => .ok [{ name := "t", description := "d" }],
    listResourcesR := fun _ => .ok [],
    callToolR := fun _ => .ok { content := [], isError := none },
    readResourceR := fun _ => .ok [] }

/-- Environment in which every remote tool call fails with a transport
error and every connect handshake is refused. -/
def envFailW : Env :=
  { connectR := fun _ => .err ceW,
    closeClientR := fun _ => .ok (), closeTransportR := fun _ => .ok (),
    listToolsR := fun _ => .ok [], listResourcesR := fun _ => .ok [],
    callToolR := fun _ => .err teW, readResourceR := fun _ => .ok [] }

def cfgMaxW : ResolvedOptions :=
  { connectTimeoutMs := 30000, toolTimeoutMs := 120000,
    maxReconnectAttempts := 2, reconnectBaseMs := 1 }

/-- A connected client with tool `t` discovered and counter 0. -/
def execConnectedW : Exec := (connectM cfgMaxW envSetupW freshExec).2

/-- **C2, witness.** `maxReconnectAttempts = 2`: after two calls whose
reconnects fail at the handshake the counter is 2, and the third call's
reconnect attempt fails with the exhausted error. -/
theorem C2_reconnect_counter_exhaustion_witness :
    (repeatCallTool cfgMaxW envFailW "t" 2 execConnectedW).2.cs.reconnectAttempt = 2 ∧
    (callToolM cfgMaxW envFailW "t"
        (repeatCallTool cfgMaxW envFailW "t" 2 execConnectedW).2).1 =
      .error (mcpErr ("Max reconnect attempts (" ++ toString 2 ++ ") exceeded")) := by
  have h := C2_reconnect_counter_exhaustion cfgMaxW envFailW "t" teW ceW execConnectedW 2
    rfl rfl rfl rfl rfl (fun _ => rfl) rfl (fun _ => rfl) (fun _ => rfl) (fun _ => rfl)
  exact ⟨h.2.1, h.2.2.1⟩

/-! ## Claim C3 -/

/-- **C3 (confirmed).** For `callTool` and `readResource` while the
session is live: (a) a remote failure matching the transport pattern
triggers exactly one reconnect (one teardown/handshake/discovery in the
trace) and exactly one retry, whose success is returned; (b) if the
retry fails — with any error, transport-pattern or not — that failure
propagates with still exactly one reconnect in the trace; (c) a
non-transport failure propagates immediately with no reconnect and no
retry (the trace gains only the single remote invocation). -/
theorem C3_transport_error_reconnect_retry_once :
    (∀ (cfg : ResolvedOptions) (env : Env) (name : String) (e : Exec)
       (te : ErrVal) (ts : List Tool) (rs : List Resource) (r : CallToolResult),
      e.cs.clientSome = true → e.cs.transportSome = true →
      toolsHas e.cs.tools name = true →
      e.cs.reconnectAttempt < cfg.maxReconnectAttempts →
      env.callToolR e.cnt.callToolN = .err te →
      isTransportError te = true →
      env.closeClientR e.cnt.closeClientN = .ok () →
      env.closeTransportR e.cnt.closeTransportN = .ok () →
      env.connectR e.cnt.connectN = .ok () →
      env.listToolsR e.cnt.listToolsN = .ok ts →
      env.listResourcesR e.cnt.listResourcesN = .ok rs →
      env.callToolR (e.cnt.callToolN + 1) = .ok r →
      (callToolM cfg env name e).1 = .ok r ∧
      (callToolM cfg env name e).2.trace = e.trace ++
        [.evCallTool name,
         .evSleep (cfg.reconnectBaseMs * 2 ^ e.cs.reconnectAttempt),
         .evCloseClient, .evCloseTransport, .evConnect,
         .evListTools, .evListResources, .evCallTool name]) ∧
    (∀ (cfg : ResolvedOptions) (env : Env) (name : String) (e : Exec)
       (te e2 : ErrVal) (ts : List Tool) (rs : List Resource),
      e.cs.clientSome = true → e.cs.transportSome = true →
      toolsHas e.cs.tools name = true →
      e.cs.reconnectAttempt < cfg.maxReconnectAttempts →
      env.callToolR e.cnt.callToolN = .err te →
      isTransportError te = true →
      env.closeClientR e.cnt.closeClientN = .ok () →
      env.closeTransportR e.cnt.closeTransportN = .ok () →
      env.connectR e.cnt.connectN = .ok () →
      env.listToolsR e.cnt.listToolsN = .ok ts →
      env.listResourcesR e.cnt.listResourcesN = .ok rs →
      env.callToolR (e.cnt.callToolN + 1) = .err e2 →
      (callToolM cfg env name e).1 = .error e2 ∧
      (callToolM cfg env name e).2.trace = e.trace ++
        [.evCallTool name,
         .evSleep (cfg.reconnectBaseMs * 2 ^ e.cs.reconnectAttempt),
         .evCloseClient, .evCloseTransport, .evConnect,
         .evListTools, .evListResources, .evCallTool name]) ∧
    (∀ (cfg : ResolvedOptions) (env : Env) (name : String) (e : Exec)
       (nte : ErrVal),
      e.cs.clientSome = true →
      toolsHas e.cs.tools name = true →
      env.callToolR e.cnt.callToolN = .err nte →
      isTransportError nte = false →
      (callToolM cfg env name e).1 = .error nte ∧
      (callToolM cfg env name e).2.trace = e.trace ++ [.evCallTool name]) ∧
    (∀ (cfg : ResolvedOptions) (env : Env) (uri : String) (e : Exec)
       (te : ErrVal) (ts : List Tool) (rs : List Resource) (cs : List ResContent),
      e.cs.clientSome = true → e.cs.transportSome = true →
      e.cs.reconnectAttempt < cfg.maxReconnectAttempts →
      env.readResourceR e.cnt.readResourceN = .err te →
      isTransportError te = true →
      env.closeClientR e.cnt.closeClientN = .ok () →
      env.closeTransportR e.cnt.closeTransportN = .ok () →
      env.connectR e.cnt.connectN = .ok () →
      env.listToolsR e.cnt.listToolsN = .ok ts →
      env.listResourcesR e.cnt.listResourcesN = .ok rs →
      env.readResourceR (e.cnt.readResourceN + 1) = .ok cs →
      (readResourceM cfg env uri e).1 = .ok (resourceText cs) ∧
      (readResourceM cfg env uri e).2.trace = e.trace ++
        [.evReadResource uri,
         .evSleep (cfg.reconnectBaseMs * 2 ^ e.cs.reconnectAttempt),
         .evCloseClient, .evCloseTransport, .evConnect,
         .evListTools, .evListResources, .evReadResource uri]) ∧
    (∀ (cfg : ResolvedOptions) (env : Env) (uri : String) (e : Exec)
       (te e2 : ErrVal) (ts : List Tool) (rs : List Resource),
      e.cs.clientSome = true → e.cs.transportSome = true →
      e.cs.reconnectAttempt < cfg.maxReconnectAttempts →
      env.readResourceR e.cnt.readResourceN = .err te →
      isTransportError te = true →
      env.closeClientR e.cnt.closeClientN = .ok () →
      env.closeTransportR e.cnt.closeTransportN = .ok () →
      env.connectR e.cnt.connectN = .ok () →
      env.listToolsR e.cnt.listToolsN = .ok ts →
      env.listResourcesR e.cnt.listResourcesN = .ok rs →
      env.readResourceR (e.cnt.readResourceN + 1) = .err e2 →
      (readResourceM cfg env uri e).1 = .error e2 ∧
      (readResourceM cfg env uri e).2.trace = e.trace ++
        [.evReadResource uri,
         .evSleep (cfg.reconnectBaseMs * 2 ^ e.cs.reconnectAttempt),
         .evCloseClient, .evCloseTransport, .evConnect,
         .evListTools, .evListResources, .evReadResource uri]) ∧
    (∀ (cfg : ResolvedOptions) (env : Env) (uri : String) (e : Exec)
       (nte : ErrVal),
      e.cs.clientSome = true →
      env.readResourceR e.cnt.readResourceN = .err nte →
      isTransportError nte = false →
      (readResourceM cfg env uri e).1 = .error nte ∧
      (readResourceM cfg env uri e).2.trace = e.trace ++ [.evReadResource uri]) := by
  refine ⟨?_, ?_, ?_, ?_, ?_, ?_⟩
  · intro cfg env name e te ts rs r h1 h2 h3 h4 h5 h6 h7 h8 h9 h10 h11 h12
    have hnotgt : ¬ (e.cs.reconnectAttempt + 1 > cfg.maxReconnectAttempts) := by omega
    simp [callToolM, reconnectM, connectM, discoverM, awaitTimeout, awaitPlain,
      h1, h2, h3, h5, h6, h7, h8, h9, h10, h11, h12, hnotgt]
  · intro cfg env name e te e2 ts rs h1 h2 h3 h4 h5 h6 h7 h8 h9 h10 h11 h12
    have hnotgt : ¬ (e.cs.reconnectAttempt + 1 > cfg.maxReconnectAttempts) := by omega
    simp [callToolM, reconnectM, connectM, discoverM, awaitTimeout, awaitPlain,
      h1, h2, h3, h5, h6, h7, h8, h9, h10, h11, h12, hnotgt]
  · intro cfg env name e nte h1 h2 h3 h4
    simp [callToolM, awaitTimeout, h1, h2, h3, h4]
  · intro cfg env uri e te ts rs cs h1 h2 h3 h4 h5 h6 h7 h8 h9 h10 h11
    have hnotgt : ¬ (e.cs.reconnectAttempt + 1 > cfg.maxReconnectAttempts) := by omega
    simp [readResourceM, reconnectM, connectM, discoverM, awaitTimeout, awaitPlain,
      h1, h2, h4, h5, h6, h7, h8, h9, h10, h11, hnotgt]
  · intro cfg env uri e te e2 ts rs h1 h2 h3 h4 h5 h6 h7 h8 h9 h10 h11
    have hnotgt : ¬ (e.cs.reconnectAttempt + 1 > cfg.maxReconnectAttempts) := by omega
    simp [readResourceM, reconnectM, connectM, discoverM, awaitTimeout, awaitPlain,
      h1, h2, h4, h5, h6, h7, h8, h9, h10, h11, hnotgt]
  · intro cfg env uri e nte h1 h2 h3
    simp [readResourceM, awaitTimeout, h1, h2, h3]

/-- Retry succeeds: first remote invocation fails with a transport
error, the second succeeds. -/
def rOK : CallToolResult :=
  { content := [{ ctype := "text", ctext := "retry-result" }], isError := some false }

def e2W : ErrVal := .error "Error" "connection closed" none none

def nteW : ErrVal := .error "Error" "Validation failed" none none

def envC3a : Env :=
  { connectR := fun _ => .ok (),
    closeClientR := fun _ => .ok (), closeTransportR := fun _ => .ok (),
    listToolsR := fun _ => .ok [{ name := "t", description := "d" }],
    listResourcesR := fun _ => .ok [],
    callToolR := fun n => if n = 0 then .err teW else .ok rOK,
    readResourceR := fun n => if n = 0 then .err teW else .ok [.withText "x"] }

def envC3b : Env :=
  { envC3a with
    callToolR := fun n => if n = 0 then .err teW else .err e2W,
    readResourceR := fun n => if n = 0 then .err teW else .err e2W }

def envC3c : Env :=
  { envC3a with
    callToolR := fun _ => .err nteW,
    readResourceR := fun _ => .err nteW }

/-- **C3, witness.** Each branch at a concrete connected client:
transport error then successful retry; transport error then failing
retry (itself transport-pattern, still propagated); non-transport error
propagated immediately — for both `callTool` and `readResource`. -/
theorem C3_transport_error_reconnect_retry_once_witness :
    (callToolM cfgMaxW envC3a "t" execConnectedW).1 = .ok rOK ∧
    (callToolM cfgMaxW envC3b "t" execConnectedW).1 = .error e2W ∧
    (callToolM cfgMaxW envC3c "t" execConnectedW).1 = .error nteW ∧
    (readResourceM cfgMaxW envC3a "u" execConnectedW).1 =
      .ok (resourceText [.withText "x"]) ∧
    (readResourceM cfgMaxW envC3b "u" execConnectedW).1 = .error e2W ∧
    (readResourceM cfgMaxW envC3c "u" execConnectedW).1 = .error nteW := by
  obtain ⟨ha, hb, hc, hd, he, hf⟩ := C3_transport_error_reconnect_retry_once
  refine ⟨?_, ?_, ?_, ?_, ?_, ?_⟩
  · exact (ha cfgMaxW envC3a "t" execConnectedW teW
      [{ name := "t", description := "d" }] [] rOK
      rfl rfl rfl (by decide) rfl rfl rfl rfl rfl rfl rfl rfl).1
  · exact (hb cfgMaxW envC3b "t" execConnectedW teW e2W
      [{ name := "t", description := "d" }] []
      rfl rfl rfl (by decide) rfl rfl rfl rfl rfl rfl rfl rfl).1
  · exact (hc cfgMaxW envC3c "t" execConnectedW nteW rfl rfl rfl (by decide)).1
  · exact (hd cfgMaxW envC3a "u" execConnectedW teW
      [{ name := "t", description := "d" }] [] [.withText "x"]
      rfl rfl (by decide) rfl rfl rfl rfl rfl rfl rfl rfl).1
  · exact (he cfgMaxW envC3b "u" execConnectedW teW e2W
      [{ name := "t", description := "d" }] []
      rfl rfl (by decide) rfl rfl rfl rfl rfl rfl rfl rfl).1
  · exact (hf cfgMaxW envC3c "u" execConnectedW nteW rfl rfl (by decide)).1

/-! ## Claim C4 -/

/-- **C4, counterexample.** The claim asserts a timed-out connect "fails
with a TimeoutError whose timeoutMs field equals the configured
connectTimeoutMs". In the source, `connect()` catches the
`TimeoutError` raised by `withTimeout` and — since it is not an
`MCPError` — rethrows `MCPError('Failed to connect to MCP server')`
with the `TimeoutError` as its *cause*: the error the caller receives
is an `MCPError`, not a `TimeoutError` (the test itself expects
`rejects.toThrow(MCPError)`). -/
theorem C4_counterexample_connect_timeout_is_wrapped :
    (connectM cfg50 envHangConnect freshExec).1 =
      .error (.error "MCPError" "Failed to connect to MCP server" none
        (some { cname := "TimeoutError",
                cmsg := "mcp.connect timed out after 50ms",
                ctimeoutMs := some 50 })) := by rfl

/-- **C4 (amended).** A connect attempt whose handshake does not settle
within `connectTimeoutMs` fails with `MCPError('Failed to connect to
MCP server')` whose cause is the `TimeoutError` with
`timeoutMs = connectTimeoutMs`; afterwards `isConnected()` is false (no
Connected state is observable), though the internal session field
remains set (see C1 for the consequence). -/
theorem C4_connect_timeout (cfg : ResolvedOptions) (env : Env) (e : Exec)
    (hnc : e.cs.connected = false)
    (hhang : env.connectR e.cnt.connectN = .hang) :
    (connectM cfg env e).1 =
      .error (.error "MCPError" "Failed to connect to MCP server" none
        (some { cname := "TimeoutError",
                cmsg := "mcp.connect timed out after " ++
                  toString cfg.connectTimeoutMs ++ "ms",
                ctimeoutMs := some cfg.connectTimeoutMs })) ∧
    isConnectedS (connectM cfg env e).2.cs = false ∧
    (connectM cfg env e).2.cs.clientSome = true := by
  simp [connectM, awaitTimeout, timeoutErr, asError, isMCPError, isConnectedS,
    hnc, hhang]

/-- **C4, witness.** The amended statement at `connectTimeoutMs = 50`. -/
theorem C4_connect_timeout_witness :
    (connectM cfg50 envHangConnect freshExec).1 =
      .error (.error "MCPError" "Failed to connect to MCP server" none
        (some { cname := "TimeoutError",
                cmsg := "mcp.connect timed out after " ++ toString 50 ++ "ms",
                ctimeoutMs := some 50 })) ∧
    isConnectedS (connectM cfg50 envHangConnect freshExec).2.cs = false ∧
    (connectM cfg50 envHangConnect freshExec).2.cs.clientSome = true :=
  C4_connect_timeout cfg50 envHangConnect freshExec rfl rfl

/-! ## Claim C8 -/

/-- Fixture: closing the session fails. -/
def envCloseFail : Env :=
  { envSetupW with
    closeClientR := fun _ => .err (.error "Error" "close failed" none none) }

/-- **C8, counterexample.** The claim asserts `disconnect()` never
surfaces an error and that afterwards `getToolCount()` is 0 and
`isConnected()` is false, unconditionally. In the source the two
`await ... .close()` calls are not wrapped in any `try`, so a close
rejection propagates out of `disconnect()` before any state is
cleared: on a connected client whose session close fails, `disconnect`
rejects with that error, the tool count is still 1 and `isConnected()`
is still true. -/
theorem C8_counterexample_disconnect_close_error_surfaces :
    (disconnectM envCloseFail execConnectedW).1 =
      .error (.error "Error" "close failed" none none) ∧
    getToolCountS (disconnectM envCloseFail execConnectedW).2.cs = 1 ∧
    isConnectedS (disconnectM envCloseFail execConnectedW).2.cs = true := by
  refine ⟨?_, ?_, ?_⟩ <;> rfl

/-- Helper: `disconnect()` when both closes succeed (or are skipped)
returns normally and fully clears the connection state. -/
theorem disconnect_clears (env : Env) (e : Exec)
    (hc1 : env.closeClientR e.cnt.closeClientN = .ok ())
    (hc2 : env.closeTransportR e.cnt.closeTransportN = .ok ()) :
    (disconnectM env e).1 = .ok () ∧
    (disconnectM env e).2.cs =
      { clientSome := false, transportSome := false, tools := [],
        resources := [], connected := false,
        reconnectAttempt := e.cs.reconnectAttempt } := by
  by_cases h1 : e.cs.clientSome <;> by_cases h2 : e.cs.transportSome <;>
    simp [disconnectM, awaitPlain, h1, h2, hc1, hc2]

/-- **C8 (amended).** `disconnect()` closes the session and transport
*without* catching close errors (a close rejection propagates and
aborts the cleanup — see the counterexample); when both closes succeed
(or are skipped because the fields are null), it returns normally,
clears the tool and resource mappings, and leaves `getToolCount() = 0`
and `isConnected() = false` whatever the prior state; in that normal
case it is idempotent — a second `disconnect()` (under any
environment) returns normally and leaves the state unchanged. -/
theorem C8_disconnect_clears_and_idempotent (env env2 : Env) (e : Exec)
    (hc1 : env.closeClientR e.cnt.closeClientN = .ok ())
    (hc2 : env.closeTransportR e.cnt.closeTransportN = .ok ()) :
    (disconnectM env e).1 = .ok () ∧
    getToolCountS (disconnectM env e).2.cs = 0 ∧
    isConnectedS (disconnectM env e).2.cs = false ∧
    (disconnectM env e).2.cs.resources = [] ∧
    (disconnectM env2 (disconnectM env e).2).1 = .ok () ∧
    (disconnectM env2 (disconnectM env e).2).2.cs = (disconnectM env e).2.cs := by
  obtain ⟨hok, hcs⟩ := disconnect_clears env e hc1 hc2
  refine ⟨hok, ?_, ?_, ?_, ?_⟩
  · rw [getToolCountS, hcs]; rfl
  · rw [isConnectedS, hcs]
  · rw [hcs]
  · rcases hE : disconnectM env e with ⟨r1, e1⟩
    rw [hE] at hcs
    simp only at hcs
    have hcl : e1.cs.clientSome = false := by rw [hcs]
    have htr : e1.cs.transportSome = false := by rw [hcs]
    constructor
    · simp [disconnectM, hcl, htr]
    · simp [disconnectM, hcl, htr]
      rw [hcs]

/-- **C8, witness.** On the connected fixture with succeeding closes. -/
theorem C8_disconnect_clears_and_idempotent_witness :
    (disconnectM envSetupW execConnectedW).1 = .ok () ∧
    getToolCountS (disconnectM envSetupW execConnectedW).2.cs = 0 ∧
    isConnectedS (disconnectM envSetupW execConnectedW).2.cs = false ∧
    (disconnectM envSetupW execConnectedW).2.cs.resources = [] ∧
    (disconnectM envSetupW (disconnectM envSetupW execConnectedW).2).1 = .ok () ∧
    (disconnectM envSetupW (disconnectM envSetupW execConnectedW).2).2.cs =
      (disconnectM envSetupW execConnectedW).2.cs :=
  C8_disconnect_clears_and_idempotent envSetupW envSetupW execConnectedW rfl rfl

/-! ## Claim C9 -/

/-- Fixture for the C9 counterexample: the first discovery's resource
listing returns one resource; every later resource listing fails; the
first remote tool call fails with a transport error (forcing a
reconnect and hence a second discovery). -/
def envC9 : Env :=
  { connectR := fun _ => .ok (),
    closeClientR := fun _ => .ok (), closeTransportR := fun _ => .ok (),
    listToolsR := fun _ => .ok [{ name := "t", description := "d" }],
    listResourcesR := fun n =>
      if n = 0 then .ok [{ uri := "res://fleet", rname := "Fleet Data" }]
      else .err (.error "Error" "boom" none none),
    callToolR := fun n => if n = 0 then .err teW else .ok rOK,
    readResourceR := fun _ => .ok [] }

/-- The C9 run: connect (discovery #1 finds one resource), then a
`callTool` whose transport error triggers a reconnect, whose
discovery #2's resource listing fails. -/
def runC9 : Except ErrVal CallToolResult × Exec :=
  (connectM cfgDisc envC9 >>= fun _ => callToolM cfgDisc envC9 "t") freshExec

/-- **C9, counterexample.** The claim asserts that when the resource
listing fails "the resource mapping is left empty — in every reachable
state the resource mapping never contains an entry from an earlier
connection". In the source, `discoverCapabilities` clears the resource
map *inside* the `try`, after the listing has succeeded; a failed
listing therefore leaves the previous connection's entries in place.
In the run above the second connection is live (the call succeeded on
its retry), its own resource listing failed (two listings were
consumed; index 1 rejects), yet `getResources()` still returns the
resource discovered by the first connection. -/
theorem C9_counterexample_stale_resources_after_reconnect :
    runC9.1 = .ok rOK ∧
    isConnectedS runC9.2.cs = true ∧
    getResourcesS runC9.2.cs = [{ uri := "res://fleet", rname := "Fleet Data" }] ∧
    runC9.2.cnt.listResourcesN = 2 ∧
    envC9.listResourcesR 1 = .err (.error "Error" "boom" none none) := by
  refine ⟨?_, ?_, ?_, ?_, ?_⟩ <;> rfl

/-- **C9 (amended).** After every discovery the tool mapping contains
exactly that discovery's listing, stale entries cleared first. The
resource mapping is replaced wholesale only when the resource listing
*succeeds*; a listing failure is tolerated (discovery still completes)
but leaves the previous resource mapping in place — empty on a first
connect, possibly still holding an earlier connection's entries after
a reconnect. -/
theorem C9_discovery_replacement (env : Env) (e : Exec) (ts : List Tool)
    (hclient : e.cs.clientSome = true)
    (hlt : env.listToolsR e.cnt.listToolsN = .ok ts) :
    (∀ rs : List Resource,
      env.listResourcesR e.cnt.listResourcesN = .ok rs →
      (discoverM env e).1 = .ok () ∧
      (discoverM env e).2.cs.tools = toolMapSetAll [] ts ∧
      (discoverM env e).2.cs.resources = resMapSetAll [] rs) ∧
    (∀ le : ErrVal,
      env.listResourcesR e.cnt.listResourcesN = .err le →
      (discoverM env e).1 = .ok () ∧
      (discoverM env e).2.cs.tools = toolMapSetAll [] ts ∧
      (discoverM env e).2.cs.resources = e.cs.resources) := by
  constructor
  · intro rs hok
    simp [discoverM, awaitPlain, hclient, hlt, hok]
  · intro le herr
    simp [discoverM, awaitPlain, hclient, hlt, herr]

/-- **C9, witness.** The failing-listing branch at two concrete states:
on the C9 run's state the previous connection's entry is retained; on a
first connection (previous mapping empty) the mapping stays empty. -/
theorem C9_discovery_replacement_witness :
    ((discoverM envC9 runC9.2).1 = .ok () ∧
     (discoverM envC9 runC9.2).2.cs.tools =
       toolMapSetAll [] [{ name := "t", description := "d" }] ∧
     (discoverM envC9 runC9.2).2.cs.resources =
       [{ uri := "res://fleet", rname := "Fleet Data" }]) ∧
    ((discoverM envC9 execConnectedW).1 = .ok () ∧
     (discoverM envC9 execConnectedW).2.cs.resources = []) := by
  constructor
  · have h := (C9_discovery_replacement envC9 runC9.2
      [{ name := "t", description := "d" }] rfl rfl).2
      (.error "Error" "boom" none none) rfl
    exact ⟨h.1, h.2.1, h.2.2⟩
  · have h := (C9_discovery_replacement envC9 execConnectedW
      [{ name := "t", description := "d" }] rfl rfl).2
      (.error "Error" "boom" none none) rfl
    exact ⟨h.1, h.2.2⟩

/-! ## Run lemmas for the agent monad -/

@[simp]
theorem run_pushMsg (m : AgentMsg) (st : AgentSt) :
    pushMsg m st = (.ok (), { st with messages := st.messages ++ [m] }) := rfl

@[simp]
theorem run_nextConverse (env : AgentEnv) (st : AgentSt) :
    nextConverse env st =
      (.ok (env.converseR st.converseN), { st with converseN := st.converseN + 1 }) := rfl

@[simp]
theorem run_nextTool (env : AgentEnv) (st : AgentSt) :
    nextTool env st =
      (.ok (env.toolR st.toolN), { st with toolN := st.toolN + 1 }) := rfl

@[simp]
theorem run_agentSleep (ms : Nat) (st : AgentSt) :
    agentSleep ms st = (.ok (), { st with sleeps := st.sleeps ++ [ms] }) := rfl

@[simp]
theorem run_bumpToolCallCount (st : AgentSt) :
    bumpToolCallCount st = (.ok (), { st with toolCallCount := st.toolCallCount + 1 }) := rfl

@[simp]
theorem run_bumpRounds (st : AgentSt) :
    bumpRounds st = (.ok (), { st with rounds := st.rounds + 1 }) := rfl

@[simp]
theorem run_addUsage (u : Option UsageR) (st : AgentSt) :
    addUsage u st = (.ok (), { st with usage := match u with
      | some x => accumUsage st.usage x
      | none => st.usage }) := rfl

@[simp]
theorem run_mkAgentResult (raw : String) (st : AgentSt) :
    mkAgentResult raw st =
      (.ok { report := parseReport raw, rawText := raw,
             toolCallCount := st.toolCallCount, rounds := st.rounds,
             usage := st.usage }, st) := rfl

/-! ## Claim C5 -/

/-- Fixture: the first tool invocation rejects with a transport-pattern
(but not rate-limit) error; a second invocation would succeed. -/
def aEnvC5 : AgentEnv :=
  { converseR := fun _ => .ok { usage := none, stopReason := some "end_turn",
                                content := [.textB "x"] },
    toolR := fun n =>
      if n = 0 then .thrown (.error "Error" "ECONNRESET" none none)
      else .okR { content := [{ ctype := "text", ctext := "fine" }],
                  isError := some false } }

/-- **C5, counterexample.** The claim asserts a thrown error matching
the *transport* pattern triggers backoff-and-retry in the per-call
wrapper. The wrapper's catch tests only `RATE_LIMIT_PATTERN`: a thrown
"ECONNRESET" (transport pattern, not rate-limit) is converted into an
error tool-result at once — exactly one tool invocation is consumed
(the would-succeed retry never happens) and no backoff sleep occurs. -/
theorem C5_counterexample_transport_throw_not_retried :
    isTransportError (.error "Error" "ECONNRESET" none none) = true ∧
    matchesAlt rateLimitAlts "ECONNRESET" = false ∧
    (callToolWithRetry aEnvC5 (initialAgentSt "m")).1 =
      .ok { etext := "Error: ECONNRESET", eIsError := true } ∧
    (callToolWithRetry aEnvC5 (initialAgentSt "m")).2.toolN = 1 ∧
    (callToolWithRetry aEnvC5 (initialAgentSt "m")).2.sleeps = [] := by
  refine ⟨?_, ?_, ?_, ?_, ?_⟩ <;> rfl

/-! ## Shared structural lemmas about the orchestration loop -/

/-- The per-call wrapper always fulfils: every branch of the loop body
returns a `ToolEntry`; the conversation, round counter and backend
cursor are untouched, and at most `fuel` tool invocations are
consumed. -/
theorem callToolRetryAux_total (env : AgentEnv) :
    ∀ (fuel attempt : Nat) (st : AgentSt),
    ∃ (t : ToolEntry) (st' : AgentSt),
      callToolRetryAux env attempt fuel st = (.ok t, st') ∧
      st'.messages = st.messages ∧ st'.rounds = st.rounds ∧
      st'.converseN = st.converseN ∧
      st'.toolCallCount = st.toolCallCount ∧
      st'.toolN ≤ st.toolN + fuel := by
  intro fuel
  induction fuel with
  | zero =>
    intro attempt st
    exact ⟨_, st, rfl, rfl, rfl, rfl, rfl, Nat.le_add_right _ _⟩
  | succ fuel ih =>
    intro attempt st
    rcases ho : env.toolR st.toolN with r | e
    · by_cases hretry : (r.isError.getD false ∧
        matchesAlt rateLimitAlts (resultToText r) ∧ attempt < retryAttempts)
      · obtain ⟨t, st', heq, h1, h2, h3, h4, h5⟩ := ih (attempt + 1)
          { st with toolN := st.toolN + 1,
                    sleeps := st.sleeps ++ [retryBaseMs * 2 ^ (attempt - 1)] }
        refine ⟨t, st', ?_, h1, h2, h3, h4, by simp at h5 ⊢; omega⟩
        simp [callToolRetryAux, ho, hretry, heq]
      · refine ⟨{ etext := resultToText r, eIsError := r.isError.getD false },
          { st with toolN := st.toolN + 1 }, ?_, rfl, rfl, rfl, rfl, ?_⟩
        · simp [callToolRetryAux, ho, hretry]
        · simp
    · by_cases hretry : (matchesAlt rateLimitAlts e.msg ∧ attempt < retryAttempts)
      · obtain ⟨t, st', heq, h1, h2, h3, h4, h5⟩ := ih (attempt + 1)
          { st with toolN := st.toolN + 1,
                    sleeps := st.sleeps ++ [retryBaseMs * 2 ^ (attempt - 1)] }
        refine ⟨t, st', ?_, h1, h2, h3, h4, by simp at h5 ⊢; omega⟩
        simp [callToolRetryAux, ho, hretry, heq]
      · refine ⟨{ etext := "Error: " ++ e.msg, eIsError := true },
          { st with toolN := st.toolN + 1 }, ?_, rfl, rfl, rfl, rfl, ?_⟩
        · simp [callToolRetryAux, ho, hretry]
        · simp

/-- The tool-execution loop of a round always fulfils and never touches
the conversation. -/
theorem runToolCalls_total (env : AgentEnv) :
    ∀ (bs : List (String × String)) (isFirst : Bool) (st : AgentSt),
    ∃ (blocks : List CBlock) (st' : AgentSt),
      runToolCalls env isFirst bs st = (.ok blocks, st') ∧
      st'.messages = st.messages ∧ st'.rounds = st.rounds ∧
      st'.converseN = st.converseN := by
  intro bs
  induction bs with
  | nil =>
    intro isFirst st
    exact ⟨[], st, rfl, rfl, rfl, rfl⟩
  | cons b rest ih =>
    intro isFirst st
    rcases b with ⟨id, name⟩
    cases isFirst
    · obtain ⟨t, st1, e1, m1, r1, c1, n1, _⟩ :=
        callToolRetryAux_total env retryAttempts 1
          { st with toolCallCount := st.toolCallCount + 1,
                    sleeps := st.sleeps ++ [toolCallDelayMs] }
      obtain ⟨blocks, st2, e2, m2, r2, c2⟩ := ih false st1
      refine ⟨.toolResultB id t.etext t.eIsError :: blocks, st2, ?_, ?_, ?_, ?_⟩
      · simp [runToolCalls, callToolWithRetry, e1, e2]
      · rw [m2, m1]
      · rw [r2, r1]
      · rw [c2, c1]
    · obtain ⟨t, st1, e1, m1, r1, c1, n1, _⟩ :=
        callToolRetryAux_total env retryAttempts 1
          { st with toolCallCount := st.toolCallCount + 1 }
      obtain ⟨blocks, st2, e2, m2, r2, c2⟩ := ih false st1
      refine ⟨.toolResultB id t.etext t.eIsError :: blocks, st2, ?_, ?_, ?_, ?_⟩
      · simp [runToolCalls, callToolWithRetry, e1, e2]
      · rw [m2, m1]
      · rw [r2, r1]
      · rw [c2, c1]

/-- A round whose response requests tool use completes normally with
`done = false`, appending exactly the assistant message and the
tool-results user message. -/
theorem executeRound_toolRound (env : AgentEnv) (timeoutMs : Nat) (st : AgentSt)
    (resp : ConverseResponse)
    (hok : env.converseR st.converseN = .ok resp)
    (hstop : ¬ (resp.stopReason = some "end_turn"))
    (htub : toolUseBlocksOf resp.content ≠ []) :
    ∃ (blocks : List CBlock) (st' : AgentSt),
      executeRound env timeoutMs st = (.ok { rdone := false, rawText := none }, st') ∧
      st'.messages = st.messages ++
        [{ role := "assistant", content := resp.content },
         { role := "user", content := blocks }] ∧
      st'.rounds = st.rounds ∧
      st'.converseN = st.converseN + 1 := by
  obtain ⟨blocks, st2, e2, m2, r2, c2⟩ :=
    runToolCalls_total env (toolUseBlocksOf resp.content) true
      { st with converseN := st.converseN + 1,
                usage := match resp.usage with
                  | some x => accumUsage st.usage x
                  | none => st.usage,
                messages := st.messages ++
                  [{ role := "assistant", content := resp.content }] }
  refine ⟨blocks, { st2 with messages := st2.messages ++
      [{ role := "user", content := blocks }] }, ?_, ?_, ?_, ?_⟩
  · simp [executeRound, hok, hstop, htub, e2]
  · simp at m2
    simp [m2]
  · simp at r2
    simp [r2]
  · simp at c2
    simp [c2]

/-- `messages.filter(assistant).pop()` after appending an assistant and
then a user message yields the appended assistant message. -/
theorem lastAssistantText_append (ms : List AgentMsg) (c b : List CBlock) :
    lastAssistantText (ms ++
      [{ role := "assistant", content := c }, { role := "user", content := b }]) =
      textJoin c := by
  simp [lastAssistantText, List.filter_append]

/-- A round that completed without throwing passes through the retry
wrapper unchanged. -/
theorem roundRetry_ok_of_ok (env : AgentEnv) (tm : Nat) (st st1 : AgentSt)
    (rr : RoundRes)
    (he : executeRound env tm st = (.ok rr, st1)) :
    executeRoundWithRetry env tm st = (.ok rr, st1) := by
  simp [executeRoundWithRetry, roundRetryAux, he]

/-- One non-terminal round unfolds the loop by one step. -/
theorem agentLoop_step_nonterminal (env : AgentEnv) (tm fuel : Nat)
    (st st1 : AgentSt)
    (he : executeRound env tm { st with rounds := st.rounds + 1 } =
      (.ok { rdone := false, rawText := none }, st1)) :
    agentLoopAux env tm (fuel + 1) st = agentLoopAux env tm fuel st1 := by
  have h2 := roundRetry_ok_of_ok env tm _ _ _ he
  conv_lhs => rw [agentLoopAux]
  simp [h2]

/-- The loop under rounds that always request tool use: it runs the
full budget and ends with the degraded epilogue. -/
theorem agentLoop_allToolRounds (env : AgentEnv) (timeoutMs : Nat) :
    ∀ (fuel : Nat) (st : AgentSt),
    0 < fuel →
    (∀ k, k < fuel → ∃ resp : ConverseResponse,
      env.converseR (st.converseN + k) = .ok resp ∧
      resp.stopReason ≠ some "end_turn" ∧
      toolUseBlocksOf resp.content ≠ []) →
    ∃ (resp : ConverseResponse) (r : AgentResultM) (st' : AgentSt),
      env.converseR (st.converseN + fuel - 1) = .ok resp ∧
      agentLoopAux env timeoutMs fuel st = (.ok r, st') ∧
      r.rounds = st.rounds + fuel ∧
      r.rawText = textJoin resp.content ∧
      r.report = parseReport (textJoin resp.content) := by
  intro fuel
  induction fuel with
  | zero => intro st h; omega
  | succ fuel ih =>
    intro st _ hall
    obtain ⟨resp0, hok0, hstop0, htub0⟩ := hall 0 (by omega)
    rw [Nat.add_zero] at hok0
    have hok0' : env.converseR
        ({ st with rounds := st.rounds + 1 } : AgentSt).converseN = .ok resp0 := hok0
    obtain ⟨blocks, st1, he, hm, hr, hc⟩ :=
      executeRound_toolRound env timeoutMs { st with rounds := st.rounds + 1 }
        resp0 hok0' hstop0 htub0
    have hstep := agentLoop_step_nonterminal env timeoutMs fuel st st1 he
    have hr' : st1.rounds = st.rounds + 1 := by simpa using hr
    have hc' : st1.converseN = st.converseN + 1 := by simpa using hc
    rcases Nat.eq_zero_or_pos fuel with hf0 | hfpos
    · subst hf0
      have hlast : lastAssistantText st1.messages = textJoin resp0.content := by
        rw [hm]
        exact lastAssistantText_append _ _ _
      have hfin : agentLoopAux env timeoutMs 1 st =
          (.ok { report := parseReport (textJoin resp0.content),
                 rawText := textJoin resp0.content,
                 toolCallCount := st1.toolCallCount,
                 rounds := st1.rounds, usage := st1.usage }, st1) := by
        rw [hstep]
        show mkAgentResult (lastAssistantText st1.messages) st1 = _
        rw [hlast, run_mkAgentResult]
      refine ⟨resp0, _, st1, by simpa using hok0, hfin, ?_, rfl, rfl⟩
      simp [hr']
    · obtain ⟨resp, r, st2, ha, hb, hc2, hd2, he2⟩ := ih st1 hfpos
        (by
          intro k hk
          obtain ⟨resp, h1, h2, h3⟩ := hall (k + 1) (by omega)
          refine ⟨resp, ?_, h2, h3⟩
          rw [hc']
          have heq2 : st.converseN + 1 + k = st.converseN + (k + 1) := by omega
          rw [heq2]
          exact h1)
      refine ⟨resp, r, st2, ?_, ?_, ?_, hd2, he2⟩
      · rw [hc'] at ha
        have heq : st.converseN + 1 + fuel - 1 = st.converseN + (fuel + 1) - 1 := by
          omega
        rw [heq] at ha
        exact ha
      · rw [hstep]
        exact hb
      · rw [hc2, hr']
        omega

/-- **C5 (amended).** In the per-call retry wrapper: a thrown error
matching the *rate-limit* pattern, or a returned error result whose
text matches the rate-limit pattern, triggers backoff-and-retry while
attempts remain; a thrown error *not* matching the rate-limit pattern —
including one matching the transport pattern, which the connection
client has already subjected to its own reconnect policy — is converted
without retry into a tool-result entry `Error: <message>` with the
error flag set; once the attempt budget is spent a thrown error is
converted the same way; a fulfilled call not matching the
rate-limit-result case returns its joined text and error flag; and a
round with tool-use blocks completes with `done = false` whatever the
tool outcomes, so the run continues into the next round rather than
aborting. -/
theorem C5_per_call_retry_classification :
    (∀ (env : AgentEnv) (st : AgentSt) (attempt fuel : Nat) (e : ErrVal),
      env.toolR st.toolN = .thrown e →
      matchesAlt rateLimitAlts e.msg = true →
      attempt < retryAttempts →
      callToolRetryAux env attempt (fuel + 1) st =
        callToolRetryAux env (attempt + 1) fuel
          { st with toolN := st.toolN + 1,
                    sleeps := st.sleeps ++ [retryBaseMs * 2 ^ (attempt - 1)] }) ∧
    (∀ (env : AgentEnv) (st : AgentSt) (attempt fuel : Nat) (r : CallToolResult),
      env.toolR st.toolN = .okR r →
      r.isError.getD false = true →
      matchesAlt rateLimitAlts (resultToText r) = true →
      attempt < retryAttempts →
      callToolRetryAux env attempt (fuel + 1) st =
        callToolRetryAux env (attempt + 1) fuel
          { st with toolN := st.toolN + 1,
                    sleeps := st.sleeps ++ [retryBaseMs * 2 ^ (attempt - 1)] }) ∧
    (∀ (env : AgentEnv) (st : AgentSt) (attempt fuel : Nat) (e : ErrVal),
      env.toolR st.toolN = .thrown e →
      matchesAlt rateLimitAlts e.msg = false →
      callToolRetryAux env attempt (fuel + 1) st =
        (.ok { etext := "Error: " ++ e.msg, eIsError := true },
         { st with toolN := st.toolN + 1 })) ∧
    (∀ (env : AgentEnv) (st : AgentSt) (fuel : Nat) (e : ErrVal),
      env.toolR st.toolN = .thrown e →
      callToolRetryAux env retryAttempts (fuel + 1) st =
        (.ok { etext := "Error: " ++ e.msg, eIsError := true },
         { st with toolN := st.toolN + 1 })) ∧
    (∀ (env : AgentEnv) (st : AgentSt) (attempt fuel : Nat) (r : CallToolResult),
      env.toolR st.toolN = .okR r →
      ¬ (r.isError.getD false = true ∧
         matchesAlt rateLimitAlts (resultToText r) = true) →
      callToolRetryAux env attempt (fuel + 1) st =
        (.ok { etext := resultToText r, eIsError := r.isError.getD false },
         { st with toolN := st.toolN + 1 })) ∧
    (∀ (env : AgentEnv) (tm : Nat) (st : AgentSt) (resp : ConverseResponse),
      env.converseR st.converseN = .ok resp →
      resp.stopReason ≠ some "end_turn" →
      toolUseBlocksOf resp.content ≠ [] →
      ∃ st' : AgentSt,
        executeRound env tm st = (.ok { rdone := false, rawText := none }, st')) := by
  refine ⟨?_, ?_, ?_, ?_, ?_, ?_⟩
  · intro env st attempt fuel e h1 h2 h3
    simp [callToolRetryAux, h1, h2, h3]
  · intro env st attempt fuel r h1 h2 h3 h4
    simp [callToolRetryAux, h1, h2, h3, h4]
  · intro env st attempt fuel e h1 h2
    simp [callToolRetryAux, h1, h2]
  · intro env st fuel e h1
    simp [callToolRetryAux, h1, Nat.lt_irrefl]
  · intro env st attempt fuel r h1 h2
    rw [Classical.not_and_iff_or_not_not] at h2
    rcases h2 with h2 | h2
    · simp [callToolRetryAux, h1, Bool.not_eq_true] at h2 ⊢
      simp [h2]
    · simp [callToolRetryAux, h1, Bool.not_eq_true] at h2 ⊢
      simp [h2]
  · intro env tm st resp h1 h2 h3
    obtain ⟨blocks, st', he, _, _, _⟩ :=
      executeRound_toolRound env tm st resp h1 h2 h3
    exact ⟨st', he⟩

/-- Fixture: first tool invocation rejects with a rate-limit error, the
second fulfils successfully; the backend immediately terminates. -/
def aEnvC5W : AgentEnv :=
  { converseR := fun _ => .ok { usage := none, stopReason := some "end_turn",
                                content := [.textB "x"] },
    toolR := fun n =>
      if n = 0 then .thrown (.error "Error" "rate limit hit" none none)
      else .okR { content := [{ ctype := "text", ctext := "fine" }],
                  isError := some false } }

/-- Fixture: a tool-use round whose single tool call throws a
non-transport, non-rate-limit error. -/
def aEnvC5PD : AgentEnv :=
  { converseR := fun n =>
      if n = 0 then
        .ok { usage := none, stopReason := some "tool_use",
              content := [.toolUseB "id1" "searchDevices"] }
      else
        .ok { usage := none, stopReason := some "end_turn",
              content := [.textB "done"] },
    toolR := fun _ => .thrown (.error "Error" "Permission denied" none none) }

/-- **C5, witness.** The rate-limit retry branch, the conversion branch
and the run-continues branch at concrete inputs. -/
theorem C5_per_call_retry_classification_witness :
    callToolRetryAux aEnvC5W 1 (2 + 1) (initialAgentSt "m") =
      callToolRetryAux aEnvC5W 2 2
        { initialAgentSt "m" with toolN := 1, sleeps := [retryBaseMs * 2 ^ 0] } ∧
    callToolRetryAux aEnvC5PD 1 (2 + 1) (initialAgentSt "m") =
      (.ok { etext := "Error: Permission denied", eIsError := true },
       { initialAgentSt "m" with toolN := 1 }) ∧
    (∃ st' : AgentSt,
      executeRound aEnvC5PD 120000 (initialAgentSt "m") =
        (.ok { rdone := false, rawText := none }, st')) := by
  obtain ⟨ha, hb, hc, hd, he, hf⟩ := C5_per_call_retry_classification
  refine ⟨?_, ?_, ?_⟩
  · have h := ha aEnvC5W (initialAgentSt "m") 1 2
      (.error "Error" "rate limit hit" none none) rfl rfl (by decide)
    simpa using h
  · exact hc aEnvC5PD (initialAgentSt "m") 1 2
      (.error "Error" "Permission denied" none none) rfl rfl
  · exact hf aEnvC5PD 120000 (initialAgentSt "m")
      { usage := none, stopReason := some "tool_use",
        content := [.toolUseB "id1" "searchDevices"] }
      rfl (by decide) (by decide)

/-! ## Claim C7 -/

/-- **C7 (confirmed).** If each of the first `maxToolRounds` backend
responses requests tool use and never terminates the turn, the run
returns normally — not an error — after exactly `maxToolRounds` rounds,
with `rounds = maxToolRounds`, and its `rawText` is the concatenated
text of the last assistant message (the final round's response), with
the report extracted from that same text. -/
theorem C7_max_rounds_degraded_termination (env : AgentEnv)
    (maxToolRounds timeoutMs : Nat) (userMessage : String)
    (hpos : 0 < maxToolRounds)
    (hall : ∀ k, k < maxToolRounds → ∃ resp : ConverseResponse,
      env.converseR k = .ok resp ∧
      resp.stopReason ≠ some "end_turn" ∧
      toolUseBlocksOf resp.content ≠ []) :
    ∃ (resp : ConverseResponse) (r : AgentResultM) (st' : AgentSt),
      env.converseR (maxToolRounds - 1) = .ok resp ∧
      executeAgentLoop env maxToolRounds timeoutMs (initialAgentSt userMessage) =
        (.ok r, st') ∧
      r.rounds = maxToolRounds ∧
      r.rawText = textJoin resp.content ∧
      r.report = parseReport (textJoin resp.content) := by
  have h := agentLoop_allToolRounds env timeoutMs maxToolRounds
    (initialAgentSt userMessage) hpos
    (by simpa [initialAgentSt] using hall)
  simpa [executeAgentLoop, initialAgentSt] using h

/-- A backend that requests the same tool in every round, never
terminating. -/
def respToolUse (n : Nat) : ConverseResponse :=
  { usage := some { inputTokens := some 10, outputTokens := some 5 },
    stopReason := some "tool_use",
    content := [.textB ("round" ++ toString n),
                .toolUseB "id1" "getFleetOverview"] }

def aEnvC7W : AgentEnv :=
  { converseR := fun n => .ok (respToolUse n),
    toolR := fun _ => .okR { content := [{ ctype := "text", ctext := "tool-output" }],
                             isError := some false } }

/-- **C7, witness.** `maxToolRounds = 2`, every round a tool-use round:
the run returns with `rounds = 2` and the second response's text as
`rawText`. -/
theorem C7_max_rounds_degraded_termination_witness :
    ∃ (resp : ConverseResponse) (r : AgentResultM) (st' : AgentSt),
      aEnvC7W.converseR (2 - 1) = .ok resp ∧
      executeAgentLoop aEnvC7W 2 120000 (initialAgentSt "go") = (.ok r, st') ∧
      r.rounds = 2 ∧
      r.rawText = textJoin resp.content ∧
      r.report = parseReport (textJoin resp.content) :=
  C7_max_rounds_degraded_termination aEnvC7W 2 120000 "go" (by decide)
    (fun k _ => ⟨respToolUse k, rfl, by simp [respToolUse],
      by simp [respToolUse, toolUseBlocksOf]⟩)

/-! ## Claim C10 -/

/-- A round whose backend request fulfilled never throws: every later
step of the round (usage accumulation, message appends, tool calls)
completes. -/
theorem executeRound_ok_total (env : AgentEnv) (tm : Nat) (st : AgentSt)
    (resp : ConverseResponse)
    (hok : env.converseR st.converseN = .ok resp) :
    ∃ (rr : RoundRes) (st' : AgentSt),
      executeRound env tm st = (.ok rr, st') := by
  by_cases hstop : resp.stopReason = some "end_turn"
  · refine ⟨{ rdone := true, rawText := some (textJoin resp.content) },
      { st with converseN := st.converseN + 1,
                usage := match resp.usage with
                  | some x => accumUsage st.usage x
                  | none => st.usage,
                messages := st.messages ++
                  [{ role := "assistant", content := resp.content }] }, ?_⟩
    simp [executeRound, hok, hstop]
  · by_cases htub : toolUseBlocksOf resp.content = []
    · refine ⟨{ rdone := true, rawText := some (textJoin resp.content) },
        { st with converseN := st.converseN + 1,
                  usage := match resp.usage with
                    | some x => accumUsage st.usage x
                    | none => st.usage,
                  messages := st.messages ++
                    [{ role := "assistant", content := resp.content }] }, ?_⟩
      simp [executeRound, hok, hstop, htub]
    · obtain ⟨blocks, st', he, _, _, _⟩ :=
        executeRound_toolRound env tm st resp hok hstop htub
      exact ⟨_, st', he⟩

/-- A throwing round attempt leaves the conversation untouched: the
only throw points (backend rejection, backend timeout) precede the
assistant append. -/
theorem executeRound_throw_preserves_messages (env : AgentEnv) (tm : Nat)
    (st : AgentSt) (e : ErrVal) (st' : AgentSt)
    (h : executeRound env tm st = (.error e, st')) :
    st'.messages = st.messages := by
  rcases hocv : env.converseR st.converseN with resp | e0 | _
  · obtain ⟨rr, st2, h2⟩ := executeRound_ok_total env tm st resp hocv
    rw [h2] at h
    cases h
  · have hced : executeRound env tm st =
        (.error e0, { st with converseN := st.converseN + 1 }) := by
      simp [executeRound, hocv]
    rw [hced] at h
    cases h
    rfl
  · have hced : executeRound env tm st =
        (.error (bedrockTimeoutErr tm), { st with converseN := st.converseN + 1 }) := by
      simp [executeRound, hocv]
    rw [hced] at h
    cases h
    rfl

/-- The same through the round-retry wrapper: every retry re-enters the
round with the conversation exactly as before the first attempt. -/
theorem roundRetryAux_throw_preserves_messages (env : AgentEnv) (tm : Nat) :
    ∀ (fuel attempt : Nat) (st : AgentSt) (e : ErrVal) (st' : AgentSt),
    roundRetryAux env tm attempt fuel st = (.error e, st') →
    st'.messages = st.messages := by
  intro fuel
  induction fuel with
  | zero =>
    intro attempt st e st' h
    simp [roundRetryAux] at h
  | succ fuel ih =>
    intro attempt st e st' h
    rcases hE : executeRound env tm st with ⟨res, st1⟩
    rcases res with e1 | rr
    case mk.ok =>
      rw [show roundRetryAux env tm attempt (fuel + 1) st = (.ok rr, st1) from by
        simp [roundRetryAux, hE]] at h
      cases h
    case mk.error =>
      have hmsg : st1.messages = st.messages :=
        executeRound_throw_preserves_messages env tm st e1 st1 hE
      by_cases hretr : (matchesAlt rateLimitAlts e1.msg ∧ attempt < retryAttempts)
      · have hstep : roundRetryAux env tm attempt (fuel + 1) st =
            roundRetryAux env tm (attempt + 1) fuel
              { st1 with sleeps := st1.sleeps ++ [retryBaseMs * 2 ^ (attempt - 1)] } := by
          simp [roundRetryAux, hE, hretr]
        rw [hstep] at h
        have hih := ih (attempt + 1) _ e st' h
        rw [hih]
        simpa using hmsg
      · have hstep : roundRetryAux env tm attempt (fuel + 1) st = (.error e1, st1) := by
          simp [roundRetryAux, hE, hretr]
        rw [hstep] at h
        cases h
        exact hmsg

/-- **C10 (confirmed).** Round atomicity: whenever a round attempt
throws (backend rejection or backend timeout), the conversation is
exactly as before the attempt — every throw point precedes the first
message append — so the round-level retry resends an identical message
sequence; and the per-call tool wrapper never throws: it always fulfils
with a tool-result entry within the fixed attempt budget. -/
theorem C10_round_atomicity :
    (∀ (env : AgentEnv) (tm : Nat) (st : AgentSt) (e : ErrVal) (st' : AgentSt),
      executeRound env tm st = (.error e, st') →
      st'.messages = st.messages) ∧
    (∀ (env : AgentEnv) (tm : Nat) (st : AgentSt) (e : ErrVal) (st' : AgentSt),
      executeRoundWithRetry env tm st = (.error e, st') →
      st'.messages = st.messages) ∧
    (∀ (env : AgentEnv) (st : AgentSt),
      ∃ (t : ToolEntry) (st' : AgentSt),
        callToolWithRetry env st = (.ok t, st') ∧
        st'.toolN ≤ st.toolN + retryAttempts ∧
        st'.messages = st.messages) := by
  refine ⟨executeRound_throw_preserves_messages, ?_, ?_⟩
  · intro env tm st e st' h
    exact roundRetryAux_throw_preserves_messages env tm retryAttempts 1 st e st' h
  · intro env st
    obtain ⟨t, st', heq, hm, _, _, _, hn⟩ :=
      callToolRetryAux_total env retryAttempts 1 st
    exact ⟨t, st', heq, hn, hm⟩

/-- Fixture: the backend request never settles within the deadline. -/
def aEnvTO : AgentEnv :=
  { converseR := fun _ => .hang,
    toolR := fun _ => .okR { content := [], isError := none } }

/-- **C10, witness.** A round attempt that times out at the backend
leaves the conversation of the fresh run untouched, and the tool
wrapper fulfils at a concrete state. -/
theorem C10_round_atomicity_witness :
    (executeRound aEnvTO 120000 (initialAgentSt "go")).2.messages =
      (initialAgentSt "go").messages ∧
    ∃ (t : ToolEntry) (st' : AgentSt),
      callToolWithRetry aEnvC7W (initialAgentSt "go") = (.ok t, st') ∧
      st'.toolN ≤ (initialAgentSt "go").toolN + retryAttempts ∧
      st'.messages = (initialAgentSt "go").messages := by
  obtain ⟨h1, h2, h3⟩ := C10_round_atomicity
  refine ⟨?_, h3 aEnvC7W (initialAgentSt "go")⟩
  exact h1 aEnvTO 120000 (initialAgentSt "go") (bedrockTimeoutErr 120000)
    (executeRound aEnvTO 120000 (initialAgentSt "go")).2 rfl

/-! ## Claim C6 -/

theorem idxOfChar_mem (c : Char) :
    ∀ (s : List Char) (i : Nat), idxOfChar c s = some i → c ∈ s := by
  intro s
  induction s with
  | nil => intro i h; simp [idxOfChar] at h
  | cons x rest ih =>
    intro i h
    by_cases hx : x = c
    · simp [hx]
    · simp [idxOfChar, hx] at h
      rcases h with ⟨j, hj, _⟩
      exact List.mem_cons_of_mem _ (ih j hj)

theorem braceSpan_some_mem (s : List Char) (sp : List Char)
    (h : braceSpan s = some sp) : lbrace ∈ s := by
  unfold braceSpan at h
  rcases h1 : idxOfChar lbrace s with _ | i
  · rw [h1] at h; simp at h
  · exact idxOfChar_mem lbrace s i h1

theorem breakAtPat_mem (pat : List Char) :
    ∀ (s pre post : List Char), breakAtPat pat s = some (pre, post) →
    ∀ x ∈ pre, x ∈ s := by
  intro s
  induction s with
  | nil =>
    intro pre post h x hx
    simp [breakAtPat] at h
    rcases h with ⟨_, hpre, _⟩
    subst hpre
    simp at hx
  | cons c rest ih =>
    intro pre post h x hx
    by_cases hl : leadsWith (c :: rest) pat
    · simp [breakAtPat, hl] at h
      rcases h with ⟨hpre, -⟩
      subst hpre
      simp at hx
    · simp only [breakAtPat, hl, if_neg, Bool.false_eq_true, if_false] at h
      rcases h2 : breakAtPat pat rest with _ | ⟨pre2, post2⟩
      · rw [h2] at h; simp at h
      · rw [h2] at h
        simp at h
        rcases h with ⟨hpre, _⟩
        rw [← hpre] at hx
        rcases List.mem_cons.mp hx with hx1 | hx2
        · simp [hx1]
        · exact List.mem_cons_of_mem _ (ih pre2 post2 h2 x hx2)

theorem fencedGroup_mem :
    ∀ (s g : List Char), fencedGroup s = some g → ∀ x ∈ g, x ∈ s := by
  intro s
  induction s with
  | nil => intro g h; simp [fencedGroup] at h
  | cons c rest ih =>
    intro g h x hx
    by_cases hl : leadsWith (c :: rest) fencePat
    · simp only [fencedGroup, hl, if_pos] at h
      rcases h2 : breakAtPat fencePat
          ((if leadsWith ((c :: rest).drop 3) jsonWord
            then ((c :: rest).drop 3).drop 4
            else (c :: rest).drop 3).dropWhile jsSpace) with _ | ⟨grp, post⟩
      · rw [h2] at h
        simp at h
        exact List.mem_cons_of_mem _ (ih g h x hx)
      · rw [h2] at h
        simp at h
        rw [← h] at hx
        have hmem := breakAtPat_mem fencePat _ grp post h2 x hx
        have hmem2 := List.dropWhile_sublist (p := jsSpace)
          (l := if leadsWith ((c :: rest).drop 3) jsonWord
            then ((c :: rest).drop 3).drop 4
            else (c :: rest).drop 3)
        have hmem3 := hmem2.subset hmem
        by_cases hjw : leadsWith ((c :: rest).drop 3) jsonWord
        · rw [if_pos hjw] at hmem3
          exact List.drop_subset _ _ (List.drop_subset _ _ hmem3)
        · rw [if_neg hjw] at hmem3
          exact List.drop_subset _ _ hmem3
    · simp only [fencedGroup, hl, if_neg, Bool.false_eq_true, if_false] at h
      exact List.mem_cons_of_mem _ (ih g h x hx)

theorem jsTrim_nil (s : List Char) (h : jsTrim s = []) :
    ∀ x ∈ s, jsSpace x = true := by
  intro x hx
  unfold jsTrim at h
  have h1 : (s.dropWhile jsSpace).reverse.dropWhile jsSpace = [] := by
    rcases h2 : (s.dropWhile jsSpace).reverse.dropWhile jsSpace with _ | ⟨a, b⟩
    · rfl
    · rw [h2] at h; simp at h
  rcases h3 : s.dropWhile jsSpace with _ | ⟨a, b⟩
  · -- whole string is whitespace
    have := List.dropWhile_eq_nil_iff.mp h3
    exact this x hx
  · -- head a fails jsSpace, but trailing dropWhile emptied everything
    exfalso
    have hall : ∀ y ∈ (s.dropWhile jsSpace).reverse, jsSpace y = true :=
      List.dropWhile_eq_nil_iff.mp h1
    have ha : jsSpace a = true := by
      apply hall
      rw [h3]
      simp
    have hhead := List.head_dropWhile_not (p := jsSpace) (l := s)
    rw [h3] at hhead
    simp at hhead
    rw [hhead] at ha
    cases ha

def extractedJson (text : String) : Option Json :=
  match braceSpan ((fencedGroup text.toList).getD text.toList) with
  | some span => jsonParse span
  | none => none

theorem lbrace_not_space : jsSpace lbrace = false := by decide



theorem fencedGroup_orig_mem (text : String) (x : Char)
    (hx : x ∈ (fencedGroup text.toList).getD text.toList) : x ∈ text.toList := by
  rcases hfg : fencedGroup text.toList with _ | g
  · rw [hfg] at hx; simpa using hx
  · rw [hfg] at hx
    exact fencedGroup_mem text.toList g hfg x (by simpa using hx)

theorem braceSpan_none_of_trim_empty (text : String)
    (htrim : (jsTrim text.toList).isEmpty) :
    braceSpan ((fencedGroup text.toList).getD text.toList) = none := by
  have hempty : jsTrim text.toList = [] := by
    rcases he : jsTrim text.toList with _ | ⟨a, b⟩
    · rfl
    · rw [he] at htrim; simp at htrim
  have hnotmem : lbrace ∉ (fencedGroup text.toList).getD text.toList := by
    intro hmem
    have hsp := jsTrim_nil text.toList hempty lbrace (fencedGroup_orig_mem text lbrace hmem)
    rw [lbrace_not_space] at hsp
    cases hsp
  have hidx : idxOfChar lbrace ((fencedGroup text.toList).getD text.toList) = none := by
    rcases hi : idxOfChar lbrace ((fencedGroup text.toList).getD text.toList) with _ | i
    · rfl
    · exact absurd (idxOfChar_mem lbrace _ i hi) hnotmem
  unfold braceSpan
  simp only [hidx]

/-- Spec-side description of structured-report extraction (the amended
claim): the candidate value is the `JSON.parse` of the span from the
first left brace to the last right brace of the fence-stripped text; it
is accepted exactly when `summary` and `overallStatus` are truthy and
`findings` is an array. -/
def reportExtractSpec (text : String) : Option Json :=
  match extractedJson text with
  | some v =>
    if truthy (getFieldJ v "summary") && truthy (getFieldJ v "overallStatus") &&
       isArrJ (getFieldJ v "findings") then some v
    else none
  | none => none

theorem parseReport_eq_spec (text : String) :
    parseReport text = reportExtractSpec text := by
  unfold parseReport reportExtractSpec extractedJson
  by_cases htrim : (jsTrim text.toList).isEmpty
  · rw [if_pos htrim]
    simp only [braceSpan_none_of_trim_empty text htrim]
  · rw [if_neg htrim]
    rcases hbs : braceSpan ((fencedGroup text.toList).getD text.toList)
        with _ | span <;> simp only [hbs]
    rcases hjp : jsonParse span with _ | v <;> simp only [hjp]

/-- **C6 (amended).** Structured-report extraction strips an optional
fenced block, takes the span from the first left brace to the last
right brace, parses it, and returns a report exactly when the parsed
value has a truthy `summary`, a truthy `overallStatus` and an array
`findings` — `metrics` is not consulted; on a missing brace pair, a
parse failure, or a failed field check it returns "no report" rather
than raising; and the run's `rawText` is the raw text unchanged,
independent of extraction. Stated as a refinement against the
spec-side `reportExtractSpec` plus the acceptance characterization. -/
theorem C6_report_extraction (text : String) :
    parseReport text = reportExtractSpec text ∧
    (∀ j : Json, parseReport text = some j ↔
      (extractedJson text = some j ∧
       truthy (getFieldJ j "summary") = true ∧
       truthy (getFieldJ j "overallStatus") = true ∧
       isArrJ (getFieldJ j "findings") = true)) ∧
    (∀ (raw : String) (st : AgentSt),
      mkAgentResult raw st =
        (.ok { report := parseReport raw, rawText := raw,
               toolCallCount := st.toolCallCount, rounds := st.rounds,
               usage := st.usage }, st)) := by
  refine ⟨parseReport_eq_spec text, ?_, fun raw st => rfl⟩
  intro j
  rw [parseReport_eq_spec]
  unfold reportExtractSpec
  rcases hex : extractedJson text with _ | v <;> simp only [hex]
  · simp
  · by_cases hcond : (truthy (getFieldJ v "summary") &&
        truthy (getFieldJ v "overallStatus") &&
        isArrJ (getFieldJ v "findings")) = true
    · rw [if_pos hcond]
      simp only [Bool.and_eq_true] at hcond
      constructor
      · intro h
        cases h
        exact ⟨rfl, hcond.1.1, hcond.1.2, hcond.2⟩
      · rintro ⟨h, -⟩
        exact h
    · rw [if_neg hcond]
      constructor
      · intro h; cases h
      · rintro ⟨hvj, h1, h2, h3⟩
        cases hvj
        exact absurd (by simp [h1, h2, h3]) hcond

/-- A report JSON object with no `metrics` field. -/
def noMetricsText : String :=
  "\x7b\"summary\":\"s\",\"overallStatus\":\"healthy\",\"findings\":[]\x7d"

/-- **C6, counterexample.** The claim requires the `metrics` top-level
field for a report to be accepted. The source checks only
`parsed.summary`, `parsed.overallStatus` and
`Array.isArray(parsed.findings)`: this input without any `metrics`
field is accepted as a report. -/
theorem C6_counterexample_metrics_not_required :
    parseReport noMetricsText =
      some (Json.jobj [("summary", Json.jstr "s"),
                       ("overallStatus", Json.jstr "healthy"),
                       ("findings", Json.jarr [])]) ∧
    getFieldJ (Json.jobj [("summary", Json.jstr "s"),
                          ("overallStatus", Json.jstr "healthy"),
                          ("findings", Json.jarr [])]) "metrics" = none := by
  constructor
  · rfl
  · rfl

/-- **C6, witness.** The refinement at the concrete no-metrics input. -/
theorem C6_report_extraction_witness :
    parseReport noMetricsText = reportExtractSpec noMetricsText :=
  (C6_report_extraction noMetricsText).1
